import Mathlib

set_option maxHeartbeats 1000000

/-!
Verification of the Shithead game server state machine
(translated from src/server/index.js).

Card ids are modelled as natural numbers (the source uses opaque unique
strings); player (socket) ids likewise.  The shuffled deck produced by
`makeDeck` is random, so operations that consume it take the already
shuffled deck as an argument.
-/

/-! ## Cards and ranks -/

inductive Rank where
  | ace | two | three | four | five | six | seven | eight | nine | ten
  | jack | queen | king
deriving DecidableEq

/-- `rankValue` from the source: A=14, K=13, Q=12, J=11, numerals face value. -/
def rankValue : Rank → Nat
  | .ace => 14
  | .king => 13
  | .queen => 12
  | .jack => 11
  | .two => 2
  | .three => 3
  | .four => 4
  | .five => 5
  | .six => 6
  | .seven => 7
  | .eight => 8
  | .nine => 9
  | .ten => 10

/-- `isMagic` from the source: 2, 3 and 10 are magic. -/
def isMagic (r : Rank) : Bool :=
  decide (r = Rank.two) || decide (r = Rank.three) || decide (r = Rank.ten)

structure Card where
  r : Rank
  s : String
  id : Nat
deriving DecidableEq

/-- `pileEffectiveTopRank` from the source: scan from the end of the pile,
return the rank of the first card from the end whose rank is not 3
(3 is invisible); null when no such card exists. -/
def pileEffectiveTopRank (pile : List Card) : Option Rank :=
  (pile.reverse.find? (fun c => decide (c.r ≠ Rank.three))).map Card.r

/-- `canPlayOnPile` from the source. -/
def canPlayOnPile (cardRank : Rank) (pile : List Card) : Bool :=
  if isMagic cardRank then true
  else
    match pileEffectiveTopRank pile with
    | none => true
    | some top =>
      if cardRank = top then true
      else if top = Rank.seven then decide (rankValue cardRank < 7)
      else decide (rankValue cardRank ≥ rankValue top)

/-- The collection loop of `lastFourNon3Same` from the source: walk the
given list (the pile reversed), collecting ranks that are not 3, stopping
once the given number of ranks has been collected. -/
def collectNon3 : List Card → Nat → List Rank
  | _, 0 => []
  | [], _ + 1 => []
  | c :: rest, n + 1 =>
      if c.r ≠ Rank.three then c.r :: collectNon3 rest n
      else collectNon3 rest (n + 1)

/-- `lastFourNon3Same` from the source: burn when the last 4 non-3 ranks of
the pile are identical (3s in between are ignored). -/
def lastFourNon3Same (pile : List Card) : Bool :=
  let non3 := collectNon3 pile.reverse 4
  if non3.length < 4 then false
  else non3.all (fun x => decide (x = non3.headD Rank.ace))

/-! ## Spec-side definitions (used to state the claims in the words of the
spec, to be compared with the definitions translated from the source) -/

/-- Rank order as worded in the claims: A to 14, K to 13, Q to 12, J to 11,
numerals to face value. -/
def specRankValue : Rank → Nat
  | .ace => 14
  | .king => 13
  | .queen => 12
  | .jack => 11
  | .two => 2
  | .three => 3
  | .four => 4
  | .five => 5
  | .six => 6
  | .seven => 7
  | .eight => 8
  | .nine => 9
  | .ten => 10

/-- Effective top as worded in the claims: the rank of the last card in the
pile whose rank is not 3, none if there is no such card. -/
def specEffectiveTopRank (pile : List Card) : Option Rank :=
  ((pile.filter (fun c => decide (c.r ≠ Rank.three))).getLast?).map Card.r

/-- Four-of-a-kind burn as worded in the claims: the last four cards of the
pile whose rank is not 3 (collected scanning from the end, ignoring
interleaved 3s) exist and all have the same rank; fewer than four non-3
cards in the whole pile means no burn. -/
def specFourSame (pile : List Card) : Bool :=
  let non3 := ((pile.reverse.filter (fun c => decide (c.r ≠ Rank.three))).take 4).map Card.r
  decide (non3.length = 4) && non3.all (fun x => decide (x = non3.headD Rank.ace))

/-! ## Pile rule lemmas -/

theorem find_eq_head_filter {α : Type} (p : α → Bool) (l : List α) :
    l.find? p = (l.filter p).head? := by
  induction l with
  | nil => rfl
  | cons a t ih =>
    cases hpa : p a
    · rw [List.find?_cons_of_neg _ (by simp [hpa]), List.filter_cons_of_neg (by simp [hpa]), ih]
    · rw [List.find?_cons_of_pos _ hpa, List.filter_cons_of_pos hpa, List.head?_cons]

theorem pileEffectiveTopRank_eq_spec (pile : List Card) :
    pileEffectiveTopRank pile = specEffectiveTopRank pile := by
  unfold pileEffectiveTopRank specEffectiveTopRank
  rw [find_eq_head_filter, List.filter_reverse, List.head?_reverse]

theorem collectNon3_eq (l : List Card) : ∀ n,
    collectNon3 l n = ((l.filter (fun c => decide (c.r ≠ Rank.three))).take n).map Card.r := by
  induction l with
  | nil => intro n; cases n <;> rfl
  | cons c t ih =>
    intro n
    cases n with
    | zero => rfl
    | succ n =>
      by_cases h : c.r = Rank.three
      · simp [collectNon3, h, ih]
      · simp [collectNon3, h, ih]

theorem lastFourNon3Same_eq_spec (pile : List Card) :
    lastFourNon3Same pile = specFourSame pile := by
  unfold lastFourNon3Same specFourSame
  rw [collectNon3_eq, List.filter_reverse]
  set non3 := (((pile.filter (fun c => decide (c.r ≠ Rank.three))).reverse).take 4).map Card.r with hn
  by_cases h : non3.length = 4
  · simp [h]
  · have hle : non3.length ≤ 4 := by
      rw [hn]; simp [List.length_take]
    have hlt : non3.length < 4 := Nat.lt_of_le_of_ne hle h
    simp [hlt, h]

/-- C1: for every rank r and pile p, `canPlayOnPile r p` is true iff r is
magic (2, 3 or 10); or the effective top of p is none; or r equals the
effective top rank; or the effective top is 7 and r is lower than 7; or the
effective top is neither none nor 7 and the value of r is at least the value
of the effective top — with the effective top and the rank order as worded
in the spec. -/
theorem c1_canPlay_characterization (r : Rank) (p : List Card) :
    canPlayOnPile r p = true ↔
      ((r = Rank.two ∨ r = Rank.three ∨ r = Rank.ten)
       ∨ specEffectiveTopRank p = none
       ∨ specEffectiveTopRank p = some r
       ∨ (specEffectiveTopRank p = some Rank.seven
            ∧ specRankValue r < specRankValue Rank.seven)
       ∨ (∃ t, specEffectiveTopRank p = some t ∧ t ≠ Rank.seven
            ∧ specRankValue t ≤ specRankValue r)) := by
  rw [← pileEffectiveTopRank_eq_spec]
  unfold canPlayOnPile
  rcases htop : pileEffectiveTopRank p with _ | t
  · simp [isMagic]
  · simp only [htop]
    cases r <;> cases t <;> simp [isMagic, rankValue, specRankValue]

/-! ## Room and game state -/

abbrev PlayerId := Nat

inductive Phase where
  | lobby | setup | playing | ended
deriving DecidableEq

inductive Stage where
  | chooseFaceUp | ready | playing
deriving DecidableEq

inductive Zone where
  | hand | faceUp | faceDown
deriving DecidableEq

def zoneName : Zone → String
  | .hand => "hand"
  | .faceUp => "faceUp"
  | .faceDown => "faceDown"

structure Player where
  id : PlayerId
  name : String
deriving DecidableEq

structure PlayerState where
  id : PlayerId
  name : String
  hand : List Card
  faceUp : List Card
  faceDown : List Card
  stage : Stage
deriving DecidableEq

structure GameState where
  deck : List Card
  pile : List Card
  burned : List Card
  currentPlayerId : Option PlayerId
  playersState : List PlayerState
  finished : List PlayerId
  winnerId : Option PlayerId
  loserId : Option PlayerId
deriving DecidableEq

/-- A room (its opaque code is irrelevant to the rules and omitted). -/
structure Room where
  hostSocketId : Option PlayerId
  players : List Player
  phase : Phase
  game : Option GameState
deriving DecidableEq

/-- The record lookup `playersState[pid]` (the record is modelled as a list
of player states; lookup returns the first state with a matching id). -/
def findPlayer (pss : List PlayerState) (pid : PlayerId) : Option PlayerState :=
  pss.find? (fun q => decide (q.id = pid))

/-- The in-place record mutation `playersState[pid] = ps`: replace the first
state whose id matches. -/
def setPlayer : List PlayerState → PlayerId → PlayerState → List PlayerState
  | [], _, _ => []
  | q :: rest, pid, ps => if q.id = pid then ps :: rest else q :: setPlayer rest pid ps

/-- `isPlayerOut` from the source: all three zones empty. -/
def isPlayerOut (ps : PlayerState) : Bool :=
  ps.hand.isEmpty && ps.faceUp.isEmpty && ps.faceDown.isEmpty

/-- `playerZoneToUse` from the source: while the deck has cards play from
the hand; after the deck is empty play hand, then face-up, then face-down. -/
def playerZoneToUse (g : GameState) (pid : PlayerId) : Zone :=
  match findPlayer g.playersState pid with
  | none => Zone.hand
  | some ps =>
    if 0 < g.deck.length then Zone.hand
    else if 0 < ps.hand.length then Zone.hand
    else if 0 < ps.faceUp.length then Zone.faceUp
    else Zone.faceDown

/-- The active (non-finished) player ids, in join order. -/
def activeIds (players : List Player) (finished : List PlayerId) : List PlayerId :=
  (players.map Player.id).filter (fun i => !(finished.contains i))

/-- `nextPlayerId` from the source.  It reads `room.game.finished` at call
time, passed here explicitly; `fromId` may be null, and a `fromId` that is
not in the active list falls back to index 0. -/
def nextPlayerId (room : Room) (finished : List PlayerId) (fromId : Option PlayerId)
    (steps : Nat) : Option PlayerId :=
  let ids := room.players.map Player.id
  if ids.isEmpty then none
  else
    let active := activeIds room.players finished
    if active.isEmpty then none
    else
      let idx := match fromId with
        | some f =>
          match active.findIdx? (fun i => decide (i = f)) with
          | some i => i
          | none => 0
        | none => 0
      active[(idx + steps) % active.length]?

def optMem (o : Option PlayerId) (l : List PlayerId) : Bool :=
  match o with
  | none => false
  | some i => l.contains i

/-- The loop in `ensureFinishAndMaybeEnd` that appends newly finished
players (all three zones empty, not yet recorded), in join order. -/
def addNewlyFinished (players : List Player) (pss : List PlayerState)
    (finished : List PlayerId) : List PlayerId :=
  players.foldl
    (fun acc p =>
      match findPlayer pss p.id with
      | none => acc
      | some ps => if isPlayerOut ps && !(acc.contains p.id) then acc ++ [p.id] else acc)
    finished

/-- `ensureFinishAndMaybeEnd` from the source. -/
def ensureFinishAndMaybeEnd (room : Room) : Room :=
  match room.game with
  | none => room
  | some g =>
    let finished1 := addNewlyFinished room.players g.playersState g.finished
    let allIds := room.players.map Player.id
    let active := activeIds room.players finished1
    if active.length = 1 ∧ 2 ≤ allIds.length then
      let winnerId := finished1.head?
      let loserId := active.head?
      let cur := if optMem g.currentPlayerId finished1 then loserId else g.currentPlayerId
      { room with phase := Phase.ended,
                  game := some { g with finished := finished1, winnerId := winnerId,
                                        loserId := loserId, currentPlayerId := cur } }
    else
      if optMem g.currentPlayerId finished1 then
        let cur := nextPlayerId room finished1 g.currentPlayerId 1
        { room with game := some { g with finished := finished1, currentPlayerId := cur } }
      else
        { room with game := some { g with finished := finished1 } }

/-- The replenish loop of `drawUpToThree` from the source: while the hand
has fewer than 3 cards and the deck is non-empty, move the top deck card to
the end of the hand.  Returns the remaining deck and the new hand. -/
def drawLoop (deck hand : List Card) : List Card × List Card :=
  if hand.length < 3 then
    match deck with
    | [] => (deck, hand)
    | c :: rest => drawLoop rest (hand ++ [c])
  else (deck, hand)

/-- `drawUpToThree` from the source. -/
def drawUpToThree (g : GameState) (pid : PlayerId) : GameState :=
  match findPlayer g.playersState pid with
  | none => g
  | some ps =>
    if g.deck.length ≤ 0 then g
    else
      let dl := drawLoop g.deck ps.hand
      { g with deck := dl.1,
               playersState := setPlayer g.playersState pid { ps with hand := dl.2 } }

/-- `removeCardsByIds` from the source: split a card list into (removed,
kept) by membership of the card id in the given id set. -/
def removeCardsByIds (arr : List Card) (ids : List Nat) : List Card × List Card :=
  (arr.filter (fun c => ids.contains c.id), arr.filter (fun c => !(ids.contains c.id)))

inductive PlayResult where
  | err (msg : String)
  | okPlain
  | okForced
  | okBurned
deriving DecidableEq

inductive SetupResult where
  | err (msg : String)
  | ok
deriving DecidableEq

/-- The setup:setFaceUp handler from the source. -/
def setFaceUp (room : Room) (sid : PlayerId) (chosenCardIds : List Nat) :
    Room × SetupResult :=
  match room.game with
  | none => (room, SetupResult.err "Game not started")
  | some g =>
    match findPlayer g.playersState sid with
    | none => (room, SetupResult.err "You are not in this game")
    | some you =>
      if you.stage ≠ Stage.chooseFaceUp then (room, SetupResult.err "Already locked in")
      else if chosenCardIds.length ≠ 3 then (room, SetupResult.err "Pick exactly 3 cards")
      else if chosenCardIds.all (fun i => you.hand.any (fun c => decide (c.id = i))) then
        let chosen := you.hand.filter (fun c => chosenCardIds.contains c.id)
        let remaining := you.hand.filter (fun c => !(chosenCardIds.contains c.id))
        let you1 := { you with faceUp := chosen, hand := remaining, stage := Stage.ready }
        let pss1 := setPlayer g.playersState sid you1
        if pss1.all (fun p => decide (p.stage = Stage.ready)) then
          let pss2 := pss1.map (fun p => { p with stage := Stage.playing })
          ({ room with phase := Phase.playing, game := some { g with playersState := pss2 } },
           SetupResult.ok)
        else
          ({ room with game := some { g with playersState := pss1 } }, SetupResult.ok)
      else (room, SetupResult.err "Invalid selection")

def defaultCard : Card := { r := Rank.ace, s := "", id := 0 }

/-- The card selection block of the play:cards handler: remove the played
cards from the required zone, or fail.  `faceDownIndex` is none when the
request payload is not an integer. -/
def selectCards (ps : PlayerState) (source : Zone) (cardIds : List Nat)
    (faceDownIndex : Option Int) : Except String (List Card × PlayerState) :=
  match source with
  | Zone.faceDown =>
    match faceDownIndex with
    | none => Except.error "Pick a face-down card"
    | some idx =>
      if idx < 0 then Except.error "No card there"
      else
        match ps.faceDown[idx.toNat]? with
        | none => Except.error "No card there"
        | some c =>
          Except.ok ([c], { ps with faceDown := ps.faceDown.eraseIdx idx.toNat })
  | _ =>
    if cardIds.length < 1 then Except.error "Select a card"
    else
      let zoneArr := if source = Zone.hand then ps.hand else ps.faceUp
      if cardIds.all (fun i => zoneArr.any (fun c => decide (c.id = i))) then
        let ranks := cardIds.filterMap
          (fun i => (zoneArr.find? (fun c => decide (c.id = i))).map Card.r)
        if ranks.all (fun x => decide (x = ranks.headD Rank.ace)) then
          let out := removeCardsByIds zoneArr cardIds
          if source = Zone.hand then Except.ok (out.1, { ps with hand := out.2 })
          else Except.ok (out.1, { ps with faceUp := out.2 })
        else Except.error "You can only play multiple cards of the same rank"
      else Except.error "Invalid selection"

/-- The tail of the play:cards handler, after the played cards have been
removed from their zone: validation against the pile (forced pickup when
illegal), burn handling, draw, turn advance, finish recomputation. -/
def applyPlay (room : Room) (g : GameState) (sid : PlayerId) (ps1 : PlayerState)
    (source : Zone) (played : List Card) : Room × PlayResult :=
  let playRank := (played.headD defaultCard).r
  if canPlayOnPile playRank g.pile then
    let pile1 := g.pile ++ played
    let num8 := (played.filter (fun c => decide (c.r = Rank.eight))).length
    if decide (playRank = Rank.ten) || lastFourNon3Same pile1 then
      let g1 := { g with pile := [], burned := g.burned ++ pile1,
                         playersState := setPlayer g.playersState sid ps1 }
      let g2 := if source = Zone.hand then drawUpToThree g1 sid else g1
      (ensureFinishAndMaybeEnd { room with game := some g2 }, PlayResult.okBurned)
    else
      let g1 := { g with pile := pile1,
                         playersState := setPlayer g.playersState sid ps1 }
      let g2 := if source = Zone.hand then drawUpToThree g1 sid else g1
      let g3 := { g2 with currentPlayerId := nextPlayerId room g.finished (some sid) (1 + num8) }
      (ensureFinishAndMaybeEnd { room with game := some g3 }, PlayResult.okPlain)
  else
    let ps2 := { ps1 with hand := ps1.hand ++ played ++ g.pile }
    let g1 := { g with pile := [],
                       playersState := setPlayer g.playersState sid ps2,
                       currentPlayerId := nextPlayerId room g.finished (some sid) 1 }
    (ensureFinishAndMaybeEnd { room with game := some g1 }, PlayResult.okForced)

/-- The play:cards handler from the source. -/
def playCards (room : Room) (sid : PlayerId) (source : Zone) (cardIds : List Nat)
    (faceDownIndex : Option Int) : Room × PlayResult :=
  match room.game with
  | none => (room, PlayResult.err "Game not started")
  | some g =>
    if room.phase ≠ Phase.playing then (room, PlayResult.err "Not in playing phase")
    else if g.currentPlayerId ≠ some sid then (room, PlayResult.err "Not your turn")
    else
      match findPlayer g.playersState sid with
      | none => (room, PlayResult.err "You are not in this game")
      | some ps =>
        if source ≠ playerZoneToUse g sid then
          (room, PlayResult.err ("You must play from " ++ zoneName (playerZoneToUse g sid)))
        else
          match selectCards ps source cardIds faceDownIndex with
          | Except.error e => (room, PlayResult.err e)
          | Except.ok (played, ps1) => applyPlay room g sid ps1 source played

/-- The play:pickup handler from the source. -/
def pickupPile (room : Room) (sid : PlayerId) : Room × PlayResult :=
  match room.game with
  | none => (room, PlayResult.err "Game not started")
  | some g =>
    if room.phase ≠ Phase.playing then (room, PlayResult.err "Not in playing phase")
    else if g.currentPlayerId ≠ some sid then (room, PlayResult.err "Not your turn")
    else
      match findPlayer g.playersState sid with
      | none => (room, PlayResult.err "You are not in this game")
      | some ps =>
        let ps1 := { ps with hand := ps.hand ++ g.pile }
        let g1 := { g with pile := [],
                           playersState := setPlayer g.playersState sid ps1,
                           currentPlayerId := nextPlayerId room g.finished (some sid) 1 }
        (ensureFinishAndMaybeEnd { room with game := some g1 }, PlayResult.okPlain)

/-- The dealing loop of the game:start handler: 3 face-down then 6 hand
cards per player, consumed from the front of the shuffled deck. -/
def dealPlayers : List Player → List Card → List PlayerState × List Card
  | [], deck => ([], deck)
  | p :: rest, deck =>
    let faceDown := deck.take 3
    let hand := (deck.drop 3).take 6
    let next := dealPlayers rest ((deck.drop 3).drop 6)
    ({ id := p.id, name := p.name, hand := hand, faceUp := [],
       faceDown := faceDown, stage := Stage.chooseFaceUp } :: next.1, next.2)

/-- The game:start handler from the source (the freshly shuffled deck is
passed in, `makeDeck` being random). -/
def startGame (room : Room) (sid : PlayerId) (deck : List Card) : Room × SetupResult :=
  if room.hostSocketId ≠ some sid then (room, SetupResult.err "Only host can start")
  else if room.players.length < 2 then (room, SetupResult.err "Need at least 2 players")
  else if room.phase ≠ Phase.lobby then (room, SetupResult.err "Game already started")
  else
    let d := dealPlayers room.players deck
    ({ room with phase := Phase.setup,
                 game := some { deck := d.2, pile := [], burned := [],
                                currentPlayerId := room.players.head?.map Player.id,
                                playersState := d.1, finished := [],
                                winnerId := none, loserId := none } },
     SetupResult.ok)

/-! ## Helper lemmas on state operations -/

theorem findPlayer_id {pss : List PlayerState} {pid : PlayerId} {ps : PlayerState}
    (h : findPlayer pss pid = some ps) : ps.id = pid := by
  have h' : pss.find? (fun q => decide (q.id = pid)) = some ps := h
  have := List.find?_some h'
  simpa using this

theorem findPlayer_setPlayer_self {pss : List PlayerState} {pid : PlayerId}
    {ps : PlayerState} (ps' : PlayerState) (h : findPlayer pss pid = some ps)
    (hid : ps'.id = pid) :
    findPlayer (setPlayer pss pid ps') pid = some ps' := by
  induction pss with
  | nil => simp [findPlayer] at h
  | cons q rest ih =>
    by_cases hq : q.id = pid
    · simp [setPlayer, hq, findPlayer, List.find?_cons, hid]
    · have h' : findPlayer rest pid = some ps := by
        simpa [findPlayer, List.find?_cons, hq] using h
      simpa [setPlayer, hq, findPlayer, List.find?_cons] using ih h'

theorem findPlayer_setPlayer_ne {pss : List PlayerState} {pid pid' : PlayerId}
    (ps' : PlayerState) (hid : ps'.id = pid) (hne : pid' ≠ pid) :
    findPlayer (setPlayer pss pid ps') pid' = findPlayer pss pid' := by
  induction pss with
  | nil => rfl
  | cons q rest ih =>
    by_cases hq : q.id = pid
    · have h3 : ¬ (pid = pid') := fun hc => hne hc.symm
      simp [setPlayer, hq, findPlayer, List.find?_cons, hid, h3]
    · rw [show setPlayer (q :: rest) pid ps' = q :: setPlayer rest pid ps' from by
        simp [setPlayer, hq]]
      by_cases hq' : q.id = pid'
      · simp [findPlayer, List.find?_cons, hq']
      · simpa [findPlayer, List.find?_cons, hq'] using ih

theorem addNewlyFinished_no_new {players : List Player} {pss : List PlayerState}
    {finished : List PlayerId}
    (h : ∀ p ∈ players, ∀ ps, findPlayer pss p.id = some ps →
          isPlayerOut ps = true → p.id ∈ finished) :
    addNewlyFinished players pss finished = finished := by
  induction players with
  | nil => rfl
  | cons p rest ih =>
    have hstep :
        (match findPlayer pss p.id with
          | none => finished
          | some ps =>
            if isPlayerOut ps && !(finished.contains p.id) then finished ++ [p.id]
            else finished) = finished := by
      cases hfp : findPlayer pss p.id with
      | none => rfl
      | some ps =>
        by_cases hout : isPlayerOut ps = true
        · have hmem : p.id ∈ finished := h p (by simp) ps hfp hout
          simp [hout, hmem]
        · simp [Bool.eq_false_iff.mpr hout]
    have hrest : ∀ p ∈ rest, ∀ ps, findPlayer pss p.id = some ps →
        isPlayerOut ps = true → p.id ∈ finished := by
      intro q hq ps hfp hout
      exact h q (by simp [hq]) ps hfp hout
    unfold addNewlyFinished at ih ⊢
    rw [List.foldl_cons, hstep]
    exact ih hrest

theorem ensureFinishAndMaybeEnd_eq_self {room : Room} {g : GameState}
    (hg : room.game = some g)
    (hnn : addNewlyFinished room.players g.playersState g.finished = g.finished)
    (hact : (activeIds room.players g.finished).length ≠ 1)
    (hcur : optMem g.currentPlayerId g.finished = false) :
    ensureFinishAndMaybeEnd room = room := by
  unfold ensureFinishAndMaybeEnd
  rw [hg]
  simp only [hnn, hcur]
  rw [if_neg (by intro hc; exact hact hc.1)]
  simp only [Bool.false_eq_true, if_false]
  have h1 : ({ g with finished := g.finished } : GameState) = g := rfl
  rw [h1, ← hg]

theorem activeIds_not_contains {players : List Player} {finished : List PlayerId}
    {c : PlayerId} (h : c ∈ activeIds players finished) :
    finished.contains c = false := by
  unfold activeIds at h
  have := List.of_mem_filter h
  simpa using this

theorem mem_of_getElem_opt {α : Type} {l : List α} {i : Nat} {a : α}
    (h : l[i]? = some a) : a ∈ l := by
  induction l generalizing i with
  | nil => simp at h
  | cons b t ih =>
    cases i with
    | zero =>
      simp only [List.getElem?_cons_zero, Option.some.injEq] at h
      simp [h]
    | succ n =>
      simp only [List.getElem?_cons_succ] at h
      exact List.mem_cons_of_mem _ (ih h)

theorem nextPlayerId_mem {room : Room} {finished : List PlayerId}
    {fromId : Option PlayerId} {steps : Nat} {c : PlayerId}
    (h : nextPlayerId room finished fromId steps = some c) :
    c ∈ activeIds room.players finished := by
  unfold nextPlayerId at h
  by_cases h1 : (room.players.map Player.id).isEmpty
  · simp [h1] at h
  · simp only [h1, if_false] at h
    by_cases h2 : (activeIds room.players finished).isEmpty
    · simp [h2] at h
    · simp only [h2, if_false] at h
      exact mem_of_getElem_opt h

theorem findIdx?_eq_findIdx {α : Type} (l : List α) (p : α → Bool)
    (h : ∃ x ∈ l, p x = true) :
    l.findIdx? p = some (l.findIdx p) := by
  induction l with
  | nil => rcases h with ⟨x, hx, _⟩; cases hx
  | cons a t ih =>
    by_cases hpa : p a = true
    · simp [List.findIdx?_cons, List.findIdx_cons, hpa]
    · have h' : ∃ x ∈ t, p x = true := by
        rcases h with ⟨x, hx, hpx⟩
        rcases List.mem_cons.mp hx with rfl | hxt
        · exact absurd hpx hpa
        · exact ⟨x, hxt, hpx⟩
      simp [List.findIdx?_cons, List.findIdx_cons, Bool.eq_false_iff.mpr hpa, ih h']

/-- Turn advance as worded in the claims: from the position of the player in
the active list (join order among non-finished players), move the given
number of steps forward, wrapping cyclically. -/
def specAdvance (players : List Player) (finished : List PlayerId) (sid : PlayerId)
    (steps : Nat) : Option PlayerId :=
  let active := activeIds players finished
  active[((active.findIdx (fun i => decide (i = sid))) + steps) % active.length]?

theorem nextPlayerId_eq_specAdvance {room : Room} {finished : List PlayerId}
    {sid : PlayerId} (steps : Nat)
    (hmem : sid ∈ activeIds room.players finished) :
    nextPlayerId room finished (some sid) steps =
      specAdvance room.players finished sid steps := by
  have hidx : (activeIds room.players finished).findIdx? (fun i => decide (i = sid)) =
      some ((activeIds room.players finished).findIdx (fun i => decide (i = sid))) :=
    findIdx?_eq_findIdx _ _ ⟨sid, hmem, by simp⟩
  have hane : activeIds room.players finished ≠ [] := List.ne_nil_of_mem hmem
  have hids : sid ∈ room.players.map Player.id := List.mem_of_mem_filter hmem
  have hidsne : room.players.map Player.id ≠ [] := List.ne_nil_of_mem hids
  have h1 : (room.players.map Player.id).isEmpty = false := by
    rcases hl : room.players.map Player.id with _ | ⟨a, t⟩
    · exact absurd hl hidsne
    · rfl
  have h2 : (activeIds room.players finished).isEmpty = false := by
    rcases hl : activeIds room.players finished with _ | ⟨a, t⟩
    · exact absurd hl hane
    · rfl
  unfold nextPlayerId specAdvance
  simp only [h1, h2, Bool.false_eq_true, if_false, hidx]

/-! ## Claim C9: error atomicity -/

theorem applyPlay_not_err (room : Room) (g : GameState) (sid : PlayerId)
    (ps1 : PlayerState) (source : Zone) (played : List Card) (msg : String) :
    (applyPlay room g sid ps1 source played).2 ≠ PlayResult.err msg := by
  simp only [applyPlay]
  split
  · split
    · simp
    · simp
  · simp

/-- C9: every play:cards or setup:setFaceUp request that yields a failure
result leaves the entire room state exactly as it was before the request;
all validation happens before any mutation. -/
theorem c9_error_atomicity :
    (∀ (room : Room) (sid : PlayerId) (source : Zone) (cardIds : List Nat)
        (fdi : Option Int) (msg : String),
        (playCards room sid source cardIds fdi).2 = PlayResult.err msg →
        (playCards room sid source cardIds fdi).1 = room) ∧
    (∀ (room : Room) (sid : PlayerId) (chosen : List Nat) (msg : String),
        (setFaceUp room sid chosen).2 = SetupResult.err msg →
        (setFaceUp room sid chosen).1 = room) := by
  constructor
  · intro room sid source cardIds fdi msg
    unfold playCards
    repeat' split
    all_goals intro h
    all_goals try rfl
    all_goals exact absurd h (applyPlay_not_err _ _ _ _ _ _ _)
  · intro room sid chosen msg
    simp only [setFaceUp]
    repeat' split
    all_goals intro h
    all_goals try rfl
    all_goals simp at h

/-! ## Claim C7: required zone -/

/-- C7: requiredZone is hand whenever the deck is non-empty (even with an
empty hand); with an empty deck it is hand, then faceUp, then faceDown as
those zones are non-empty; and play:cards rejects with an error any request
whose source differs from the required zone. -/
theorem c7_required_zone :
    (∀ (g : GameState) (pid : PlayerId) (ps : PlayerState),
        findPlayer g.playersState pid = some ps →
        (g.deck ≠ [] → playerZoneToUse g pid = Zone.hand) ∧
        (g.deck = [] →
          playerZoneToUse g pid =
            (if ps.hand ≠ [] then Zone.hand
             else if ps.faceUp ≠ [] then Zone.faceUp
             else Zone.faceDown))) ∧
    (∀ (room : Room) (g : GameState) (sid : PlayerId) (source : Zone)
        (cardIds : List Nat) (fdi : Option Int) (ps : PlayerState),
        room.game = some g → room.phase = Phase.playing →
        g.currentPlayerId = some sid →
        findPlayer g.playersState sid = some ps →
        source ≠ playerZoneToUse g sid →
        playCards room sid source cardIds fdi =
          (room, PlayResult.err ("You must play from " ++ zoneName (playerZoneToUse g sid)))) := by
  constructor
  · intro g pid ps hfp
    refine ⟨?_, ?_⟩
    · intro hd
      unfold playerZoneToUse
      rw [hfp]
      simp [List.length_pos.mpr hd]
    · intro hd
      unfold playerZoneToUse
      rw [hfp, hd]
      by_cases hh : ps.hand = []
      · by_cases hf : ps.faceUp = []
        · simp [hh, hf]
        · simp [hh, hf, List.length_pos.mpr hf]
      · simp [hh, List.length_pos.mpr hh]
  · intro room g sid source cardIds fdi ps hg hph hcur hfp hz
    unfold playCards
    simp only [hg]
    rw [if_neg (by simp [hph]), if_neg (by simp [hcur])]
    simp only [hfp]
    rw [if_pos hz]

/-! ## Sample states used by the witnesses -/

def w7ps : PlayerState := {
  id := 0, name := "A", hand := [], faceUp := [{ r := Rank.five, s := "S", id := 30 }],
  faceDown := [], stage := Stage.playing }

def w7ps2 : PlayerState := {
  id := 1, name := "B", hand := [{ r := Rank.six, s := "H", id := 31 }], faceUp := [],
  faceDown := [], stage := Stage.playing }

def w7g : GameState := {
  deck := [], pile := [], burned := [], currentPlayerId := some 0,
  playersState := [w7ps, w7ps2], finished := [], winnerId := none, loserId := none }

def w7room : Room := {
  hostSocketId := some 0,
  players := [{ id := 0, name := "A" }, { id := 1, name := "B" }],
  phase := Phase.playing,
  game := some w7g }

/-- Witness for C7 at a concrete state: with an empty deck, empty hand and
non-empty face-up zone the required zone is faceUp, and a hand-sourced
request is rejected with the corresponding error. -/
theorem c7_required_zone_witness :
    playerZoneToUse w7g 0 = Zone.faceUp ∧
    playCards w7room 0 Zone.hand [30] none =
      (w7room, PlayResult.err ("You must play from " ++ zoneName (playerZoneToUse w7g 0))) := by
  constructor
  · have h := (c7_required_zone.1 w7g 0 w7ps (by decide)).2 (by decide)
    rw [h]; decide
  · exact c7_required_zone.2 w7room w7g 0 Zone.hand [30] none w7ps rfl rfl rfl
      (by decide) (by decide)

/-- Witness for C9 at concrete failing requests: the results are errors and
the room is returned unchanged. -/
theorem c9_error_atomicity_witness :
    (playCards w7room 1 Zone.hand [] none).2 = PlayResult.err "Not your turn" ∧
    (playCards w7room 1 Zone.hand [] none).1 = w7room ∧
    (setFaceUp w7room 0 []).2 = SetupResult.err "Already locked in" ∧
    (setFaceUp w7room 0 []).1 = w7room := by
  refine ⟨by decide,
          c9_error_atomicity.1 w7room 1 Zone.hand [] none "Not your turn" (by decide),
          by decide,
          c9_error_atomicity.2 w7room 0 [] "Already locked in" (by decide)⟩

/-! ## Support lemmas for the play:cards path claims -/

theorem contains_of_mem_nat {l : List Nat} {a : Nat} (h : a ∈ l) : l.contains a = true := by
  simpa using h

theorem removed_ne_nil {arr : List Card} {cardIds : List Nat}
    (hlen : ¬ cardIds.length < 1)
    (hall : (cardIds.all fun i => arr.any fun c => decide (c.id = i)) = true) :
    (removeCardsByIds arr cardIds).1 ≠ [] := by
  rcases cardIds with _ | ⟨i0, restIds⟩
  · simp at hlen
  · have h0 : arr.any (fun c => decide (c.id = i0)) = true := by
      have := List.all_eq_true.mp hall i0 (by simp)
      simpa using this
    rcases List.any_eq_true.mp h0 with ⟨c, hc, hcid⟩
    have hcid2 : c.id = i0 := by simpa using hcid
    have hmem : c ∈ (removeCardsByIds arr (i0 :: restIds)).1 := by
      unfold removeCardsByIds
      refine List.mem_filter.mpr ⟨hc, contains_of_mem_nat ?_⟩
      rw [hcid2]; simp
    exact List.ne_nil_of_mem hmem

theorem selectCards_ok_facts {ps : PlayerState} {source : Zone} {cardIds : List Nat}
    {fdi : Option Int} {played : List Card} {ps1 : PlayerState}
    (h : selectCards ps source cardIds fdi = Except.ok (played, ps1)) :
    ps1.id = ps.id ∧ played ≠ [] := by
  simp only [selectCards] at h
  split at h
  · -- source = faceDown
    split at h
    · simp at h
    · split at h
      · simp at h
      · split at h
        · simp at h
        · simp only [Except.ok.injEq, Prod.mk.injEq] at h
          obtain ⟨h1, h2⟩ := h
          subst h1; subst h2
          exact ⟨rfl, by simp⟩
  · -- source = hand or faceUp
    split at h
    · simp at h
    · rename_i hlen
      by_cases hs : source = Zone.hand
      · rw [if_pos hs] at h
        split at h
        · split at h
          · simp only [Except.ok.injEq, Prod.mk.injEq] at h
            obtain ⟨h1, h2⟩ := h
            subst h1; subst h2
            rename_i hall hrk
            exact ⟨rfl, removed_ne_nil hlen hall⟩
          · simp at h
        · simp at h
      · rw [if_neg hs] at h
        split at h
        · split at h
          · simp only [Except.ok.injEq, Prod.mk.injEq] at h
            obtain ⟨h1, h2⟩ := h
            subst h1; subst h2
            rename_i hall hrk
            exact ⟨rfl, removed_ne_nil hlen hall⟩
          · simp at h
        · simp at h

theorem playCards_eq_applyPlay {room : Room} {g : GameState} {sid : PlayerId}
    {ps ps1 : PlayerState} {source : Zone} {cardIds : List Nat} {fdi : Option Int}
    {played : List Card}
    (hg : room.game = some g) (hph : room.phase = Phase.playing)
    (hcur : g.currentPlayerId = some sid)
    (hfp : findPlayer g.playersState sid = some ps)
    (hz : source = playerZoneToUse g sid)
    (hsel : selectCards ps source cardIds fdi = Except.ok (played, ps1)) :
    playCards room sid source cardIds fdi = applyPlay room g sid ps1 source played := by
  unfold playCards
  simp only [hg]
  rw [if_neg (by simp [hph]), if_neg (by simp [hcur])]
  simp only [hfp]
  rw [if_neg (by simp [hz])]
  simp only [hsel]

theorem setPlayer_findPlayer_self {pss : List PlayerState} {pid : PlayerId}
    {ps : PlayerState} (h : findPlayer pss pid = some ps) :
    setPlayer pss pid ps = pss := by
  induction pss with
  | nil => rfl
  | cons q rest ih =>
    by_cases hq : q.id = pid
    · have hqe : q = ps := by
        have : some q = some ps := by
          simpa [findPlayer, List.find?_cons, hq] using h
        simpa using this
      subst hqe
      simp [setPlayer, hq]
    · have h' : findPlayer rest pid = some ps := by
        simpa [findPlayer, List.find?_cons, hq] using h
      simp [setPlayer, hq, ih h']

theorem drawLoop_nil (h : List Card) : drawLoop [] h = ([], h) := by
  unfold drawLoop
  split <;> rfl

theorem drawLoop_snd_append : ∀ (d h : List Card), ∃ t, (drawLoop d h).2 = h ++ t := by
  intro d
  induction d with
  | nil => intro h; exact ⟨[], by simp [drawLoop_nil]⟩
  | cons c rest ih =>
    intro h
    by_cases hlen : h.length < 3
    · rcases ih (h ++ [c]) with ⟨t, ht⟩
      refine ⟨c :: t, ?_⟩
      unfold drawLoop
      rw [if_pos hlen]
      simp [ht]
    · refine ⟨[], ?_⟩
      unfold drawLoop
      rw [if_neg hlen]
      simp

/-- The game state after replenishing the hand of a player: the deck and
hand produced by the replenish loop. -/
def drawnGame (g : GameState) (sid : PlayerId) (ps : PlayerState) : GameState :=
  { g with
    deck := (drawLoop g.deck ps.hand).1,
    playersState := setPlayer g.playersState sid
      { ps with hand := (drawLoop g.deck ps.hand).2 } }

theorem drawUpToThree_spec {g : GameState} {sid : PlayerId} {ps : PlayerState}
    (hfp : findPlayer g.playersState sid = some ps) :
    drawUpToThree g sid = drawnGame g sid ps := by
  unfold drawnGame
  unfold drawUpToThree
  simp only [hfp]
  by_cases hd : g.deck.length ≤ 0
  · have hdeck : g.deck = [] := List.length_eq_zero.mp (Nat.le_zero.mp hd)
    rw [if_pos hd, hdeck, drawLoop_nil]
    have h1 : ({ ps with hand := ps.hand } : PlayerState) = ps := rfl
    rw [h1, setPlayer_findPlayer_self hfp]
    cases g; simp_all
  · rw [if_neg hd]

theorem isPlayerOut_after_draw (ps1 : PlayerState) (deck : List Card)
    (hsafe : isPlayerOut ps1 = false ∨ deck ≠ []) :
    isPlayerOut { ps1 with hand := (drawLoop deck ps1.hand).2 } = false := by
  rcases drawLoop_snd_append deck ps1.hand with ⟨t, ht⟩
  rcases hsafe with hout | hdeck
  · unfold isPlayerOut at hout ⊢
    simp only [Bool.and_eq_false_iff] at hout ⊢
    rcases hout with (hh | hf) | hfd
    · left; left
      have : ps1.hand ≠ [] := by
        intro hc; rw [hc] at hh; simp at hh
      simp only [ht]
      simp [List.isEmpty_iff, this]
    · left; right; exact hf
    · right; exact hfd
  · rcases hdeck2 : deck with _ | ⟨c, rest⟩
    · exact absurd hdeck2 hdeck
    · unfold isPlayerOut
      simp only [Bool.and_eq_false_iff]
      left; left
      by_cases hlen : ps1.hand.length < 3
      · rcases drawLoop_snd_append rest (ps1.hand ++ [c]) with ⟨t2, ht2⟩
        have hdl : (drawLoop (c :: rest) ps1.hand).2 = (ps1.hand ++ [c]) ++ t2 := by
          unfold drawLoop
          rw [if_pos hlen]
          simpa using ht2
        rw [hdl]
        simp [List.isEmpty_iff]
      · have hdl : (drawLoop (c :: rest) ps1.hand).2 = ps1.hand := by
          unfold drawLoop
          rw [if_neg hlen]
        have hne : ps1.hand ≠ [] := by
          intro hc; rw [hc] at hlen; simp at hlen
        rw [hdl]
        simp [List.isEmpty_iff, hne]

theorem optMem_nextPlayerId {room : Room} {finished : List PlayerId}
    {fromId : Option PlayerId} {steps : Nat} :
    optMem (nextPlayerId room finished fromId steps) finished = false := by
  cases hnp : nextPlayerId room finished fromId steps with
  | none => rfl
  | some c =>
    have := activeIds_not_contains (nextPlayerId_mem hnp)
    simpa [optMem] using this

/-- The invariant of any reachable in-progress game: every player whose
three zones are all empty is already recorded in finished (the finish
recomputation runs after every mutation). -/
def finishRecorded (players : List Player) (pss : List PlayerState)
    (finished : List PlayerId) : Bool :=
  players.all (fun p =>
    match findPlayer pss p.id with
    | none => true
    | some q => !(isPlayerOut q) || finished.contains p.id)

theorem finishRecorded_spec {players : List Player} {pss : List PlayerState}
    {finished : List PlayerId}
    (h : finishRecorded players pss finished = true) :
    ∀ p ∈ players, ∀ q, findPlayer pss p.id = some q →
      isPlayerOut q = true → p.id ∈ finished := by
  intro p hp q hq hout
  have h1 := List.all_eq_true.mp h p hp
  rw [hq] at h1
  simp only [hout, Bool.not_true, Bool.false_or] at h1
  simpa using h1

/-! ## Claim C3: forced pickup on an illegal play -/

/-- C3: a play:cards request by the current player from the required zone
whose (first) played card fails canPlay against the pile is not an error:
it succeeds carrying forcedPickup; afterwards the hand of the player holds
its previous content (with the played cards removed from their zone) plus
exactly the played cards plus every card of the prior pile, the pile is
empty, and currentPlayerId has advanced by one step to the next active
player.  Stated for a game in progress: every all-empty player is already
recorded in finished, the number of active players is not 1, and the mover
is active. -/
theorem c3_forced_pickup {room : Room} {g : GameState} {sid : PlayerId}
    {ps ps1 : PlayerState} {source : Zone} {cardIds : List Nat} {fdi : Option Int}
    {played : List Card}
    (hg : room.game = some g) (hph : room.phase = Phase.playing)
    (hcur : g.currentPlayerId = some sid)
    (hfp : findPlayer g.playersState sid = some ps)
    (hz : source = playerZoneToUse g sid)
    (hsel : selectCards ps source cardIds fdi = Except.ok (played, ps1))
    (hcp : canPlayOnPile (played.headD defaultCard).r g.pile = false)
    (hrec : finishRecorded room.players g.playersState g.finished = true)
    (hact : (activeIds room.players g.finished).length ≠ 1)
    (hsid : sid ∈ activeIds room.players g.finished) :
    (playCards room sid source cardIds fdi).2 = PlayResult.okForced ∧
    ∃ g2, (playCards room sid source cardIds fdi).1.game = some g2 ∧
      findPlayer g2.playersState sid =
        some { ps1 with hand := ps1.hand ++ played ++ g.pile } ∧
      g2.pile = [] ∧
      g2.currentPlayerId = specAdvance room.players g.finished sid 1 := by
  obtain ⟨hid1, hne1⟩ := selectCards_ok_facts hsel
  have hpid : ps.id = sid := findPlayer_id hfp
  have hps2id : ({ ps1 with hand := ps1.hand ++ played ++ g.pile } : PlayerState).id = sid := by
    simpa using hid1.trans hpid
  have hnn : addNewlyFinished room.players
      (setPlayer g.playersState sid { ps1 with hand := ps1.hand ++ played ++ g.pile })
      g.finished = g.finished := by
    apply addNewlyFinished_no_new
    intro p hp q hq hout
    by_cases hpsid : p.id = sid
    · rw [hpsid, findPlayer_setPlayer_self _ hfp hps2id] at hq
      have hq2 : q = { ps1 with hand := ps1.hand ++ played ++ g.pile } := by
        simpa using hq.symm
      rw [hq2] at hout
      have hpl : played = [] := by
        simp [isPlayerOut, List.isEmpty_iff, List.append_eq_nil] at hout
        tauto
      exact absurd hpl hne1
    · rw [findPlayer_setPlayer_ne _ hps2id hpsid] at hq
      exact finishRecorded_spec hrec p hp q hq hout
  rw [playCards_eq_applyPlay hg hph hcur hfp hz hsel]
  simp only [applyPlay]
  rw [if_neg (by rw [hcp]; simp)]
  have hens : ensureFinishAndMaybeEnd { room with game := some {
        g with
        pile := [],
        playersState := setPlayer g.playersState sid
          { ps1 with hand := ps1.hand ++ played ++ g.pile },
        currentPlayerId := nextPlayerId room g.finished (some sid) 1 } } =
      { room with game := some {
        g with
        pile := [],
        playersState := setPlayer g.playersState sid
          { ps1 with hand := ps1.hand ++ played ++ g.pile },
        currentPlayerId := nextPlayerId room g.finished (some sid) 1 } } :=
    ensureFinishAndMaybeEnd_eq_self rfl hnn hact
      (show optMem (nextPlayerId room g.finished (some sid) 1) g.finished = false from
        optMem_nextPlayerId)
  rw [hens]
  exact ⟨rfl, _, rfl, findPlayer_setPlayer_self _ hfp hps2id, rfl,
    nextPlayerId_eq_specAdvance 1 hsid⟩

/-! ## Sample state for the C3 witness -/

def w3c4 : Card := { r := Rank.four, s := "S", id := 40 }

def w3cq : Card := { r := Rank.queen, s := "H", id := 41 }

def w3A : PlayerState := {
  id := 0, name := "A", hand := [w3c4], faceUp := [], faceDown := [],
  stage := Stage.playing }

def w3A1 : PlayerState := {
  id := 0, name := "A", hand := [], faceUp := [], faceDown := [],
  stage := Stage.playing }

def w3B : PlayerState := {
  id := 1, name := "B", hand := [{ r := Rank.five, s := "D", id := 42 }], faceUp := [],
  faceDown := [], stage := Stage.playing }

def w3g : GameState := {
  deck := [], pile := [w3cq], burned := [], currentPlayerId := some 0,
  playersState := [w3A, w3B], finished := [], winnerId := none, loserId := none }

def w3room : Room := {
  hostSocketId := some 0,
  players := [{ id := 0, name := "A" }, { id := 1, name := "B" }],
  phase := Phase.playing,
  game := some w3g }

/-- Witness for C3 at a concrete state: player A plays a 4 on a queen from
the hand; the request succeeds with forcedPickup, A picks up the 4 and the
queen, the pile is cleared and the turn passes to B. -/
theorem c3_forced_pickup_witness :
    (playCards w3room 0 Zone.hand [40] none).2 = PlayResult.okForced ∧
    ∃ g2, (playCards w3room 0 Zone.hand [40] none).1.game = some g2 ∧
      findPlayer g2.playersState 0 =
        some { w3A1 with hand := w3A1.hand ++ [w3c4] ++ w3g.pile } ∧
      g2.pile = [] ∧
      g2.currentPlayerId = specAdvance w3room.players w3g.finished 0 1 :=
  c3_forced_pickup rfl rfl rfl
    (show findPlayer w3g.playersState 0 = some w3A from by decide)
    (by decide)
    (show selectCards w3A Zone.hand [40] none = Except.ok ([w3c4], w3A1) from rfl)
    (by decide) (by decide) (by decide) (by decide)

/-! ## Claim C4: burns -/

/-- The game state assembled by the burn branch of the play:cards handler
(pile and played cards moved to burned, mover updated), before the draw and
the finish recomputation. -/
def burnGame1 (g : GameState) (sid : PlayerId) (ps1 : PlayerState)
    (played : List Card) : GameState :=
  { g with pile := [], burned := g.burned ++ (g.pile ++ played),
           playersState := setPlayer g.playersState sid ps1 }

theorem applyPlay_burn {room : Room} {g : GameState} {sid : PlayerId}
    {ps1 : PlayerState} {source : Zone} {played : List Card}
    (hleg : canPlayOnPile (played.headD defaultCard).r g.pile = true)
    (hburn : (decide ((played.headD defaultCard).r = Rank.ten)
        || lastFourNon3Same (g.pile ++ played)) = true) :
    applyPlay room g sid ps1 source played =
      (ensureFinishAndMaybeEnd { room with
          game := some (if source = Zone.hand
            then drawUpToThree (burnGame1 g sid ps1 played) sid
            else burnGame1 g sid ps1 played) },
       PlayResult.okBurned) := by
  simp only [applyPlay, burnGame1]
  rw [if_pos hleg, if_pos hburn]

/-- C4 (amended): a legal play:cards request that triggers a burn (rank 10
played, or four-of-a-kind ignoring 3s after appending) succeeds carrying
burned; all cards of the pile including the played ones move to burned, the
pile becomes empty, the hand is replenished from the deck up to 3 cards iff
the source zone was hand, and currentPlayerId does not change — provided
the player is not finished by the play (otherwise the finish recomputation
of section 4.5 advances the turn or ends the game).  Stated for a game in
progress, as in C3. -/
theorem c4_burn {room : Room} {g : GameState} {sid : PlayerId}
    {ps ps1 : PlayerState} {source : Zone} {cardIds : List Nat} {fdi : Option Int}
    {played : List Card}
    (hg : room.game = some g) (hph : room.phase = Phase.playing)
    (hcur : g.currentPlayerId = some sid)
    (hfp : findPlayer g.playersState sid = some ps)
    (hz : source = playerZoneToUse g sid)
    (hsel : selectCards ps source cardIds fdi = Except.ok (played, ps1))
    (hleg : canPlayOnPile (played.headD defaultCard).r g.pile = true)
    (hburn : (decide ((played.headD defaultCard).r = Rank.ten)
        || lastFourNon3Same (g.pile ++ played)) = true)
    (hrec : finishRecorded room.players g.playersState g.finished = true)
    (hact : (activeIds room.players g.finished).length ≠ 1)
    (hsid : sid ∈ activeIds room.players g.finished)
    (hsafe : isPlayerOut ps1 = false ∨ (source = Zone.hand ∧ g.deck ≠ [])) :
    (playCards room sid source cardIds fdi).2 = PlayResult.okBurned ∧
    (playCards room sid source cardIds fdi).1.phase = room.phase ∧
    ∃ g2, (playCards room sid source cardIds fdi).1.game = some g2 ∧
      g2.pile = [] ∧
      g2.burned = g.burned ++ (g.pile ++ played) ∧
      g2.currentPlayerId = g.currentPlayerId ∧
      (source = Zone.hand →
        g2.deck = (drawLoop g.deck ps1.hand).1 ∧
        findPlayer g2.playersState sid =
          some { ps1 with hand := (drawLoop g.deck ps1.hand).2 }) ∧
      (source ≠ Zone.hand →
        g2.deck = g.deck ∧ findPlayer g2.playersState sid = some ps1) := by
  obtain ⟨hid1, hne1⟩ := selectCards_ok_facts hsel
  have hpid : ps.id = sid := findPlayer_id hfp
  have hid2 : ps1.id = sid := hid1.trans hpid
  have hcontains : g.finished.contains sid = false := activeIds_not_contains hsid
  rw [playCards_eq_applyPlay hg hph hcur hfp hz hsel, applyPlay_burn hleg hburn]
  have hfp1 : findPlayer (burnGame1 g sid ps1 played).playersState sid = some ps1 :=
    findPlayer_setPlayer_self _ hfp hid2
  by_cases hsrc : source = Zone.hand
  · rw [if_pos hsrc, drawUpToThree_spec hfp1]
    have hdid : ({ ps1 with hand := (drawLoop g.deck ps1.hand).2 } : PlayerState).id = sid := by
      simpa using hid2
    have hfp2 : findPlayer (drawnGame (burnGame1 g sid ps1 played) sid ps1).playersState sid =
        some { ps1 with hand := (drawLoop g.deck ps1.hand).2 } :=
      findPlayer_setPlayer_self _ hfp1 hdid
    have hnotout : isPlayerOut { ps1 with hand := (drawLoop g.deck ps1.hand).2 } = false := by
      apply isPlayerOut_after_draw
      rcases hsafe with h1 | ⟨_, h2⟩
      · exact Or.inl h1
      · exact Or.inr h2
    have hnn : addNewlyFinished room.players
        (drawnGame (burnGame1 g sid ps1 played) sid ps1).playersState g.finished
        = g.finished := by
      apply addNewlyFinished_no_new
      intro p hp q hq hout
      by_cases hpsid : p.id = sid
      · rw [hpsid, hfp2] at hq
        have hq2 := hq.symm
        simp only [Option.some.injEq] at hq2
        rw [hq2] at hout
        exact absurd hout (by simp [hnotout])
      · have hstep1 : findPlayer (drawnGame (burnGame1 g sid ps1 played) sid ps1).playersState p.id
            = findPlayer (burnGame1 g sid ps1 played).playersState p.id :=
          findPlayer_setPlayer_ne _ hdid hpsid
        have hstep2 : findPlayer (burnGame1 g sid ps1 played).playersState p.id
            = findPlayer g.playersState p.id :=
          findPlayer_setPlayer_ne _ hid2 hpsid
        rw [hstep1, hstep2] at hq
        exact finishRecorded_spec hrec p hp q hq hout
    have hcur2 : optMem (drawnGame (burnGame1 g sid ps1 played) sid ps1).currentPlayerId
        g.finished = false := by
      have he : (drawnGame (burnGame1 g sid ps1 played) sid ps1).currentPlayerId =
          g.currentPlayerId := rfl
      rw [he, hcur]
      simpa [optMem] using hcontains
    have hens := ensureFinishAndMaybeEnd_eq_self
      (show ({ room with game := some (drawnGame (burnGame1 g sid ps1 played) sid ps1) } : Room).game
        = some (drawnGame (burnGame1 g sid ps1 played) sid ps1) from rfl) hnn hact hcur2
    rw [hens]
    refine ⟨rfl, rfl, _, rfl, rfl, rfl, rfl, fun _ => ⟨rfl, hfp2⟩, fun hcon => absurd hsrc hcon⟩
  · rw [if_neg hsrc]
    have hnotout : isPlayerOut ps1 = false := by
      rcases hsafe with h1 | ⟨h2, _⟩
      · exact h1
      · exact absurd h2 hsrc
    have hnn : addNewlyFinished room.players
        (burnGame1 g sid ps1 played).playersState g.finished = g.finished := by
      apply addNewlyFinished_no_new
      intro p hp q hq hout
      by_cases hpsid : p.id = sid
      · rw [hpsid, hfp1] at hq
        have hq2 := hq.symm
        simp only [Option.some.injEq] at hq2
        rw [hq2] at hout
        exact absurd hout (by simp [hnotout])
      · have hstep2 : findPlayer (burnGame1 g sid ps1 played).playersState p.id
            = findPlayer g.playersState p.id :=
          findPlayer_setPlayer_ne _ hid2 hpsid
        rw [hstep2] at hq
        exact finishRecorded_spec hrec p hp q hq hout
    have hcur2 : optMem (burnGame1 g sid ps1 played).currentPlayerId g.finished = false := by
      have he : (burnGame1 g sid ps1 played).currentPlayerId = g.currentPlayerId := rfl
      rw [he, hcur]
      simpa [optMem] using hcontains
    have hens := ensureFinishAndMaybeEnd_eq_self
      (show ({ room with game := some (burnGame1 g sid ps1 played) } : Room).game
        = some (burnGame1 g sid ps1 played) from rfl) hnn hact hcur2
    rw [hens]
    refine ⟨rfl, rfl, _, rfl, rfl, rfl, rfl, fun hcon => absurd hcon hsrc, fun _ => ⟨rfl, hfp1⟩⟩

/-! ## C4 counterexample and witness states -/

def cx4A : PlayerState := {
  id := 0, name := "A", hand := [], faceUp := [],
  faceDown := [{ r := Rank.ten, s := "S", id := 10 }], stage := Stage.playing }

def cx4B : PlayerState := {
  id := 1, name := "B", hand := [{ r := Rank.four, s := "H", id := 20 }],
  faceUp := [], faceDown := [], stage := Stage.playing }

def cx4room : Room := {
  hostSocketId := some 0,
  players := [{ id := 0, name := "A" }, { id := 1, name := "B" }],
  phase := Phase.playing,
  game := some {
    deck := [], pile := [], burned := [], currentPlayerId := some 0,
    playersState := [cx4A, cx4B], finished := [], winnerId := none, loserId := none } }

/-- Counterexample to C4 as stated: a legal play of a lone 10 from the
face-down zone — the last card of the player — triggers a burn (the result
carries burned), yet currentPlayerId does change: the finish recomputation
ends the game and moves the turn pointer to the loser. -/
theorem c4_burn_counterexample :
    (playCards cx4room 0 Zone.faceDown [] (some 0)).2 = PlayResult.okBurned ∧
    cx4room.game.map GameState.currentPlayerId = some (some 0) ∧
    (playCards cx4room 0 Zone.faceDown [] (some 0)).1.game.map GameState.currentPlayerId =
      some (some 1) ∧
    (playCards cx4room 0 Zone.faceDown [] (some 0)).1.phase = Phase.ended := by decide

def w4c10 : Card := { r := Rank.ten, s := "S", id := 50 }

def w4c4 : Card := { r := Rank.four, s := "S", id := 51 }

def w4A : PlayerState := {
  id := 0, name := "A", hand := [w4c10, w4c4], faceUp := [], faceDown := [],
  stage := Stage.playing }

def w4A1 : PlayerState := {
  id := 0, name := "A", hand := [w4c4], faceUp := [], faceDown := [],
  stage := Stage.playing }

def w4B : PlayerState := {
  id := 1, name := "B", hand := [{ r := Rank.five, s := "D", id := 52 }], faceUp := [],
  faceDown := [], stage := Stage.playing }

def w4g : GameState := {
  deck := [], pile := [], burned := [], currentPlayerId := some 0,
  playersState := [w4A, w4B], finished := [], winnerId := none, loserId := none }

def w4room : Room := {
  hostSocketId := some 0,
  players := [{ id := 0, name := "A" }, { id := 1, name := "B" }],
  phase := Phase.playing,
  game := some w4g }

/-- Witness for the amended C4 at a concrete state: player A holds two
cards and plays a lone 10 from the hand; the pile (just that 10) burns, A
keeps the turn. -/
theorem c4_burn_witness :
    (playCards w4room 0 Zone.hand [50] none).2 = PlayResult.okBurned ∧
    (playCards w4room 0 Zone.hand [50] none).1.phase = w4room.phase ∧
    ∃ g2, (playCards w4room 0 Zone.hand [50] none).1.game = some g2 ∧
      g2.pile = [] ∧
      g2.burned = w4g.burned ++ (w4g.pile ++ [w4c10]) ∧
      g2.currentPlayerId = w4g.currentPlayerId ∧
      (Zone.hand = Zone.hand →
        g2.deck = (drawLoop w4g.deck w4A1.hand).1 ∧
        findPlayer g2.playersState 0 =
          some { w4A1 with hand := (drawLoop w4g.deck w4A1.hand).2 }) ∧
      (Zone.hand ≠ Zone.hand →
        g2.deck = w4g.deck ∧ findPlayer g2.playersState 0 = some w4A1) :=
  c4_burn rfl rfl rfl
    (show findPlayer w4g.playersState 0 = some w4A from by decide)
    (by decide)
    (show selectCards w4A Zone.hand [50] none = Except.ok ([w4c10], w4A1) from rfl)
    (by decide) (by decide) (by decide) (by decide) (by decide)
    (Or.inl (by decide))

/-! ## Claim C5: non-burning legal plays -/

/-- The game state assembled by the non-burn branch of the play:cards
handler before draw and turn advance: played cards appended to the pile,
mover updated. -/
def playGame1 (g : GameState) (sid : PlayerId) (ps1 : PlayerState)
    (played : List Card) : GameState :=
  { g with pile := g.pile ++ played,
           playersState := setPlayer g.playersState sid ps1 }

/-- Overwriting the turn pointer of a game state. -/
def advGame (g2 : GameState) (cur : Option PlayerId) : GameState :=
  { g2 with currentPlayerId := cur }

theorem applyPlay_plain {room : Room} {g : GameState} {sid : PlayerId}
    {ps1 : PlayerState} {source : Zone} {played : List Card}
    (hleg : canPlayOnPile (played.headD defaultCard).r g.pile = true)
    (hnob : (decide ((played.headD defaultCard).r = Rank.ten)
        || lastFourNon3Same (g.pile ++ played)) = false) :
    applyPlay room g sid ps1 source played =
      (ensureFinishAndMaybeEnd { room with
          game := some (advGame
            (if source = Zone.hand
              then drawUpToThree (playGame1 g sid ps1 played) sid
              else playGame1 g sid ps1 played)
            (nextPlayerId room g.finished (some sid)
              (1 + (played.filter (fun c => decide (c.r = Rank.eight))).length))) },
       PlayResult.okPlain) := by
  simp only [applyPlay, playGame1, advGame]
  rw [if_pos hleg, if_neg (by rw [hnob]; simp)]

theorem ensure_room_game_eq_self (room : Room) (G : GameState)
    (hnn : addNewlyFinished room.players G.playersState G.finished = G.finished)
    (hact : (activeIds room.players G.finished).length ≠ 1)
    (hcur : optMem G.currentPlayerId G.finished = false) :
    ensureFinishAndMaybeEnd { room with game := some G } = { room with game := some G } :=
  ensureFinishAndMaybeEnd_eq_self rfl hnn hact hcur

/-- C5 (amended): a legal, non-burning play:cards request succeeds; the
played cards are appended to the pile in order, the hand is replenished
from the deck up to 3 cards iff the source zone was hand, and
currentPlayerId advances by exactly 1 + (number of played 8s) steps over
the current active players in join order, wrapping cyclically — provided
the player is not finished by the play (otherwise the finish recomputation
of section 4.5 further adjusts the turn or ends the game).  Stated for a
game in progress, as in C3. -/
theorem c5_plain_play {room : Room} {g : GameState} {sid : PlayerId}
    {ps ps1 : PlayerState} {source : Zone} {cardIds : List Nat} {fdi : Option Int}
    {played : List Card}
    (hg : room.game = some g) (hph : room.phase = Phase.playing)
    (hcur : g.currentPlayerId = some sid)
    (hfp : findPlayer g.playersState sid = some ps)
    (hz : source = playerZoneToUse g sid)
    (hsel : selectCards ps source cardIds fdi = Except.ok (played, ps1))
    (hleg : canPlayOnPile (played.headD defaultCard).r g.pile = true)
    (hnob : (decide ((played.headD defaultCard).r = Rank.ten)
        || lastFourNon3Same (g.pile ++ played)) = false)
    (hrec : finishRecorded room.players g.playersState g.finished = true)
    (hact : (activeIds room.players g.finished).length ≠ 1)
    (hsid : sid ∈ activeIds room.players g.finished)
    (hsafe : isPlayerOut ps1 = false ∨ (source = Zone.hand ∧ g.deck ≠ [])) :
    (playCards room sid source cardIds fdi).2 = PlayResult.okPlain ∧
    ∃ g2, (playCards room sid source cardIds fdi).1.game = some g2 ∧
      g2.pile = g.pile ++ played ∧
      g2.currentPlayerId = specAdvance room.players g.finished sid
        (1 + (played.filter (fun c => decide (c.r = Rank.eight))).length) ∧
      (source = Zone.hand →
        g2.deck = (drawLoop g.deck ps1.hand).1 ∧
        findPlayer g2.playersState sid =
          some { ps1 with hand := (drawLoop g.deck ps1.hand).2 }) ∧
      (source ≠ Zone.hand →
        g2.deck = g.deck ∧ findPlayer g2.playersState sid = some ps1) := by
  obtain ⟨hid1, hne1⟩ := selectCards_ok_facts hsel
  have hpid : ps.id = sid := findPlayer_id hfp
  have hid2 : ps1.id = sid := hid1.trans hpid
  rw [playCards_eq_applyPlay hg hph hcur hfp hz hsel, applyPlay_plain hleg hnob]
  set k := 1 + (played.filter (fun c => decide (c.r = Rank.eight))).length with hk
  have hfp1 : findPlayer (playGame1 g sid ps1 played).playersState sid = some ps1 :=
    findPlayer_setPlayer_self _ hfp hid2
  by_cases hsrc : source = Zone.hand
  · rw [if_pos hsrc, drawUpToThree_spec hfp1]
    have hdid : ({ ps1 with hand := (drawLoop g.deck ps1.hand).2 } : PlayerState).id = sid := by
      simpa using hid2
    have hfp2 : findPlayer (drawnGame (playGame1 g sid ps1 played) sid ps1).playersState sid =
        some { ps1 with hand := (drawLoop g.deck ps1.hand).2 } :=
      findPlayer_setPlayer_self _ hfp1 hdid
    have hnotout : isPlayerOut { ps1 with hand := (drawLoop g.deck ps1.hand).2 } = false := by
      apply isPlayerOut_after_draw
      rcases hsafe with h1 | ⟨_, h2⟩
      · exact Or.inl h1
      · exact Or.inr h2
    have hnn : addNewlyFinished room.players
        (drawnGame (playGame1 g sid ps1 played) sid ps1).playersState g.finished
        = g.finished := by
      apply addNewlyFinished_no_new
      intro p hp q hq hout
      by_cases hpsid : p.id = sid
      · rw [hpsid, hfp2] at hq
        have hq2 := hq.symm
        simp only [Option.some.injEq] at hq2
        rw [hq2] at hout
        exact absurd hout (by simp [hnotout])
      · have hstep1 : findPlayer (drawnGame (playGame1 g sid ps1 played) sid ps1).playersState p.id
            = findPlayer (playGame1 g sid ps1 played).playersState p.id :=
          findPlayer_setPlayer_ne _ hdid hpsid
        have hstep2 : findPlayer (playGame1 g sid ps1 played).playersState p.id
            = findPlayer g.playersState p.id :=
          findPlayer_setPlayer_ne _ hid2 hpsid
        rw [hstep1, hstep2] at hq
        exact finishRecorded_spec hrec p hp q hq hout
    have hcur2 : optMem (advGame (drawnGame (playGame1 g sid ps1 played) sid ps1)
        (nextPlayerId room g.finished (some sid) k)).currentPlayerId g.finished = false := by
      have he : (advGame (drawnGame (playGame1 g sid ps1 played) sid ps1)
          (nextPlayerId room g.finished (some sid) k)).currentPlayerId =
          nextPlayerId room g.finished (some sid) k := rfl
      rw [he]
      exact optMem_nextPlayerId
    rw [ensure_room_game_eq_self room (advGame (drawnGame (playGame1 g sid ps1 played) sid ps1)
      (nextPlayerId room g.finished (some sid) k)) hnn hact hcur2]
    refine ⟨rfl, _, rfl, rfl, nextPlayerId_eq_specAdvance k hsid,
      fun _ => ⟨rfl, hfp2⟩, fun hcon => absurd hsrc hcon⟩
  · rw [if_neg hsrc]
    have hnotout : isPlayerOut ps1 = false := by
      rcases hsafe with h1 | ⟨h2, _⟩
      · exact h1
      · exact absurd h2 hsrc
    have hnn : addNewlyFinished room.players
        (playGame1 g sid ps1 played).playersState g.finished = g.finished := by
      apply addNewlyFinished_no_new
      intro p hp q hq hout
      by_cases hpsid : p.id = sid
      · rw [hpsid, hfp1] at hq
        have hq2 := hq.symm
        simp only [Option.some.injEq] at hq2
        rw [hq2] at hout
        exact absurd hout (by simp [hnotout])
      · have hstep2 : findPlayer (playGame1 g sid ps1 played).playersState p.id
            = findPlayer g.playersState p.id :=
          findPlayer_setPlayer_ne _ hid2 hpsid
        rw [hstep2] at hq
        exact finishRecorded_spec hrec p hp q hq hout
    have hcur2 : optMem (advGame (playGame1 g sid ps1 played)
        (nextPlayerId room g.finished (some sid) k)).currentPlayerId g.finished = false := by
      have he : (advGame (playGame1 g sid ps1 played)
          (nextPlayerId room g.finished (some sid) k)).currentPlayerId =
          nextPlayerId room g.finished (some sid) k := rfl
      rw [he]
      exact optMem_nextPlayerId
    rw [ensure_room_game_eq_self room (advGame (playGame1 g sid ps1 played)
      (nextPlayerId room g.finished (some sid) k)) hnn hact hcur2]
    refine ⟨rfl, _, rfl, rfl, nextPlayerId_eq_specAdvance k hsid,
      fun hcon => absurd hcon hsrc, fun _ => ⟨rfl, hfp1⟩⟩

/-! ## C5 counterexample and witness states -/

def cx5e8 : Card := { r := Rank.eight, s := "S", id := 11 }

def cx5A : PlayerState := {
  id := 0, name := "A", hand := [], faceUp := [], faceDown := [cx5e8],
  stage := Stage.playing }

def cx5room : Room := {
  hostSocketId := some 0,
  players := [{ id := 0, name := "A" }, { id := 1, name := "B" }],
  phase := Phase.playing,
  game := some {
    deck := [], pile := [], burned := [], currentPlayerId := some 0,
    playersState := [cx5A, cx4B], finished := [], winnerId := none, loserId := none } }

/-- Counterexample to C5 as stated: a legal non-burning play of a lone 8
from the face-down zone — the last card of the player.  The claim says the
turn advances 1 + 1 = 2 steps over the active players [0, 1], wrapping back
to player 0; the code instead ends up at player 1, because the finish
recomputation sees player 0 finished and moves the turn pointer again. -/
theorem c5_advance_counterexample :
    (playCards cx5room 0 Zone.faceDown [] (some 0)).2 = PlayResult.okPlain ∧
    specAdvance cx5room.players []
      0 (1 + ([cx5e8].filter (fun c => decide (c.r = Rank.eight))).length) = some 0 ∧
    (playCards cx5room 0 Zone.faceDown [] (some 0)).1.game.map GameState.currentPlayerId =
      some (some 1) := by decide

def w5c9 : Card := { r := Rank.nine, s := "S", id := 60 }

def w5c4 : Card := { r := Rank.four, s := "S", id := 61 }

def w5A : PlayerState := {
  id := 0, name := "A", hand := [w5c9, w5c4], faceUp := [], faceDown := [],
  stage := Stage.playing }

def w5A1 : PlayerState := {
  id := 0, name := "A", hand := [w5c4], faceUp := [], faceDown := [],
  stage := Stage.playing }

def w5B : PlayerState := {
  id := 1, name := "B", hand := [{ r := Rank.five, s := "D", id := 62 }], faceUp := [],
  faceDown := [], stage := Stage.playing }

def w5g : GameState := {
  deck := [], pile := [], burned := [], currentPlayerId := some 0,
  playersState := [w5A, w5B], finished := [], winnerId := none, loserId := none }

def w5room : Room := {
  hostSocketId := some 0,
  players := [{ id := 0, name := "A" }, { id := 1, name := "B" }],
  phase := Phase.playing,
  game := some w5g }

/-- Witness for the amended C5 at a concrete state: player A plays a lone 9
from the hand on an empty pile; it is appended to the pile and the turn
advances one step to B. -/
theorem c5_plain_play_witness :
    (playCards w5room 0 Zone.hand [60] none).2 = PlayResult.okPlain ∧
    ∃ g2, (playCards w5room 0 Zone.hand [60] none).1.game = some g2 ∧
      g2.pile = w5g.pile ++ [w5c9] ∧
      g2.currentPlayerId = specAdvance w5room.players w5g.finished 0
        (1 + ([w5c9].filter (fun c => decide (c.r = Rank.eight))).length) ∧
      (Zone.hand = Zone.hand →
        g2.deck = (drawLoop w5g.deck w5A1.hand).1 ∧
        findPlayer g2.playersState 0 =
          some { w5A1 with hand := (drawLoop w5g.deck w5A1.hand).2 }) ∧
      (Zone.hand ≠ Zone.hand →
        g2.deck = w5g.deck ∧ findPlayer g2.playersState 0 = some w5A1) :=
  c5_plain_play rfl rfl rfl
    (show findPlayer w5g.playersState 0 = some w5A from by decide)
    (by decide)
    (show selectCards w5A Zone.hand [60] none = Except.ok ([w5c9], w5A1) from rfl)
    (by decide) (by decide) (by decide) (by decide) (by decide)
    (Or.inl (by decide))

/-! ## Claim C2: burn trigger characterization -/

/-- C2: a validated legal play triggers a burn (the result carries burned)
iff the rank played is 10, or after appending the played cards the last
four non-3 cards of the pile exist and all share one rank (scanning from
the end, ignoring interleaved 3s; fewer than four non-3 cards in the whole
pile never burn) — as worded in the spec (specFourSame); in particular a
play whose rank is 10 always burns, regardless of pile contents. -/
theorem c2_burn_characterization {room : Room} {g : GameState} {sid : PlayerId}
    {ps ps1 : PlayerState} {source : Zone} {cardIds : List Nat} {fdi : Option Int}
    {played : List Card}
    (hg : room.game = some g) (hph : room.phase = Phase.playing)
    (hcur : g.currentPlayerId = some sid)
    (hfp : findPlayer g.playersState sid = some ps)
    (hz : source = playerZoneToUse g sid)
    (hsel : selectCards ps source cardIds fdi = Except.ok (played, ps1))
    (hleg : canPlayOnPile (played.headD defaultCard).r g.pile = true) :
    ((playCards room sid source cardIds fdi).2 = PlayResult.okBurned ↔
      ((played.headD defaultCard).r = Rank.ten ∨ specFourSame (g.pile ++ played) = true)) ∧
    ((played.headD defaultCard).r = Rank.ten →
      (playCards room sid source cardIds fdi).2 = PlayResult.okBurned) := by
  rw [playCards_eq_applyPlay hg hph hcur hfp hz hsel]
  cases hb : (decide ((played.headD defaultCard).r = Rank.ten)
      || lastFourNon3Same (g.pile ++ played)) with
  | true =>
    rw [applyPlay_burn hleg hb]
    simp only [Bool.or_eq_true, decide_eq_true_eq, lastFourNon3Same_eq_spec] at hb
    exact ⟨⟨fun _ => hb, fun _ => rfl⟩, fun _ => rfl⟩
  | false =>
    rw [applyPlay_plain hleg hb]
    constructor
    · constructor
      · intro hcon; exact absurd hcon (by simp)
      · intro hrhs
        exfalso
        rcases hrhs with h1 | h2
        · rw [h1] at hb; simp at hb
        · rw [← lastFourNon3Same_eq_spec] at h2
          rw [h2] at hb; simp at hb
    · intro h1
      rw [h1] at hb; simp at hb

/-- Witness for C2 at a concrete state: the play of a lone 10 from the hand
of player A (the state of the C4 witness) burns, and the characterization
holds there. -/
theorem c2_burn_characterization_witness :
    ((playCards w4room 0 Zone.hand [50] none).2 = PlayResult.okBurned ↔
      (([w4c10].headD defaultCard).r = Rank.ten ∨
        specFourSame (w4g.pile ++ [w4c10]) = true)) ∧
    (([w4c10].headD defaultCard).r = Rank.ten →
      (playCards w4room 0 Zone.hand [50] none).2 = PlayResult.okBurned) :=
  c2_burn_characterization rfl rfl rfl
    (show findPlayer w4g.playersState 0 = some w4A from by decide)
    (by decide)
    (show selectCards w4A Zone.hand [50] none = Except.ok ([w4c10], w4A1) from rfl)
    (by decide)

/-! ## Claim C6: finish / win / loss resolution -/

theorem contains_eq_decide (l : List Nat) (a : Nat) : l.contains a = decide (a ∈ l) := by
  induction l with
  | nil => simp
  | cons b t ih =>
    by_cases hb : b = a
    · simp [hb, List.contains_cons]
    · simp [List.contains_cons, ih, hb, Ne.symm hb]

/-- The newly finished players as worded in the claims: every player whose
three zones are all empty and who is not yet recorded, in join order. -/
def newlyFinished (players : List Player) (pss : List PlayerState)
    (finished : List PlayerId) : List PlayerId :=
  (players.filter (fun p =>
      (match findPlayer pss p.id with
        | none => false
        | some q => isPlayerOut q) && !(finished.contains p.id))).map Player.id

theorem addNewlyFinished_go (pss : List PlayerState) :
    ∀ (players : List Player) (acc finished : List PlayerId),
      (players.map Player.id).Nodup →
      (∀ p ∈ players, acc.contains p.id = finished.contains p.id) →
      players.foldl (fun acc p =>
        match findPlayer pss p.id with
        | none => acc
        | some ps => if isPlayerOut ps && !(acc.contains p.id) then acc ++ [p.id] else acc) acc
      = acc ++ newlyFinished players pss finished := by
  intro players
  induction players with
  | nil => intro acc finished _ _; simp [newlyFinished]
  | cons p rest ih =>
    intro acc finished hnodup hinv
    rw [List.foldl_cons]
    have hp := hinv p (by simp)
    have hnodup2 : (rest.map Player.id).Nodup := by
      rw [List.map_cons] at hnodup
      exact hnodup.of_cons
    have hpid_notin : p.id ∉ rest.map Player.id := by
      rw [List.map_cons] at hnodup
      exact (List.nodup_cons.mp hnodup).1
    cases hfp : findPlayer pss p.id with
    | none =>
      have hnf : newlyFinished (p :: rest) pss finished = newlyFinished rest pss finished := by
        unfold newlyFinished
        simp [List.filter_cons, hfp]
      rw [hnf]
      exact ih acc finished hnodup2 (fun q hq => hinv q (by simp [hq]))
    | some ps =>
      dsimp only
      by_cases hcond : (isPlayerOut ps && !(finished.contains p.id)) = true
      · have hcond2 : (isPlayerOut ps && !(acc.contains p.id)) = true := by
          rw [hp]; exact hcond
        rw [if_pos hcond2]
        have hc2 := hcond
        simp only [Bool.and_eq_true, Bool.not_eq_true'] at hc2
        have hnotmem : p.id ∉ finished := by
          have := hc2.2
          rw [contains_eq_decide] at this
          simpa using this
        have hnf : newlyFinished (p :: rest) pss finished =
            p.id :: newlyFinished rest pss finished := by
          unfold newlyFinished
          simp [List.filter_cons, hfp, hc2.1, hnotmem]
        rw [hnf]
        have hinv2 : ∀ q ∈ rest, (acc ++ [p.id]).contains q.id = finished.contains q.id := by
          intro q hq
          have hqne : q.id ≠ p.id := by
            intro hc
            exact hpid_notin (hc ▸ (List.mem_map_of_mem Player.id hq))
          have hsame : (acc ++ [p.id]).contains q.id = acc.contains q.id := by
            rw [contains_eq_decide, contains_eq_decide]
            simp [List.mem_append, hqne]
          rw [hsame]
          exact hinv q (by simp [hq])
        rw [ih (acc ++ [p.id]) finished hnodup2 hinv2, List.append_assoc]
        rfl
      · have hcond2 : ¬ ((isPlayerOut ps && !(acc.contains p.id)) = true) := by
          rw [hp]; exact hcond
        rw [if_neg hcond2]
        have hpropneg : ¬ (isPlayerOut ps = true ∧ p.id ∉ finished) := by
          rintro ⟨h1, h2⟩
          apply hcond
          simp only [Bool.and_eq_true, Bool.not_eq_true']
          refine ⟨h1, ?_⟩
          rw [contains_eq_decide]
          simpa using h2
        have hnf : newlyFinished (p :: rest) pss finished = newlyFinished rest pss finished := by
          unfold newlyFinished
          simp [List.filter_cons, hfp, hpropneg]
        rw [hnf]
        exact ih acc finished hnodup2 (fun q hq => hinv q (by simp [hq]))

theorem addNewlyFinished_eq_append (players : List Player) (pss : List PlayerState)
    (finished : List PlayerId) (hnodup : (players.map Player.id).Nodup) :
    addNewlyFinished players pss finished = finished ++ newlyFinished players pss finished :=
  addNewlyFinished_go pss players finished finished hnodup (fun _ _ => rfl)

theorem findIdx_eq_none {α : Type} (l : List α) (p : α → Bool)
    (h : ∀ x ∈ l, p x = false) : l.findIdx? p = none := by
  induction l with
  | nil => rfl
  | cons a t ih =>
    have ha := h a (by simp)
    simp [List.findIdx?_cons, ha, ih (fun x hx => h x (by simp [hx]))]

/-- The bump performed by the finish recomputation when the current player
is finished: since that player is absent from the active list, the index of
`nextPlayerId` falls back to 0 and one step lands on the active player at
index 1 mod the number of active players. -/
theorem nextPlayerId_not_active {room : Room} {finished : List PlayerId}
    {cur : Option PlayerId}
    (hcur : ∀ c, cur = some c → c ∉ activeIds room.players finished) :
    nextPlayerId room finished cur 1 =
      (activeIds room.players finished)[1 % (activeIds room.players finished).length]? := by
  unfold nextPlayerId
  by_cases h1 : (room.players.map Player.id).isEmpty
  · have hids : room.players.map Player.id = [] := by
      rcases hl : room.players.map Player.id with _ | ⟨a, t⟩
      · rfl
      · rw [hl] at h1; simp at h1
    have hae : activeIds room.players finished = [] := by
      unfold activeIds
      rw [hids]
      rfl
    rw [if_pos h1, hae]
    rfl
  · rw [if_neg (by simp [h1])]
    by_cases h2 : (activeIds room.players finished).isEmpty
    · have hae : activeIds room.players finished = [] := by
        rcases hl : activeIds room.players finished with _ | ⟨a, t⟩
        · rfl
        · rw [hl] at h2; simp at h2
      rw [if_pos h2, hae]
      rfl
    · rw [if_neg (by simp [h2])]
      cases hc : cur with
      | none => simp
      | some c =>
        have hnotmem := hcur c hc
        have hfi : (activeIds room.players finished).findIdx?
            (fun i => decide (i = c)) = none := by
          apply findIdx_eq_none
          intro x hx
          by_cases hxc : x = c
          · exact absurd (hxc ▸ hx) hnotmem
          · simp [hxc]
        simp [hfi]

/-- C6 (amended): after every mutation the finish recomputation appends
every player whose three zones are all empty and who is not yet recorded to
finished, in discovery order; if exactly one active player remains and the
room has at least 2 players, the phase becomes ended with winnerId the
first finished player and loserId the sole remaining active player;
otherwise, if currentPlayerId is among finished, it becomes the active
player at index 1 mod the number of active players — the index fallback of
nextPlayerId for a player absent from the active list — which is not in
general the seat right after the finished player (see the counterexample);
when the current player is not finished it is unchanged. -/
theorem c6_finish_resolution {room : Room} {g : GameState}
    (hg : room.game = some g)
    (hnodup : (room.players.map Player.id).Nodup) :
    ∃ g1, (ensureFinishAndMaybeEnd room).game = some g1 ∧
      g1.finished = g.finished ++ newlyFinished room.players g.playersState g.finished ∧
      (((activeIds room.players g1.finished).length = 1 ∧ 2 ≤ room.players.length) →
        (ensureFinishAndMaybeEnd room).phase = Phase.ended ∧
        g1.winnerId = g1.finished.head? ∧
        g1.loserId = (activeIds room.players g1.finished).head?) ∧
      (¬ ((activeIds room.players g1.finished).length = 1 ∧ 2 ≤ room.players.length) →
        (optMem g.currentPlayerId g1.finished = true →
          g1.currentPlayerId = (activeIds room.players g1.finished)[1 %
            (activeIds room.players g1.finished).length]?) ∧
        (optMem g.currentPlayerId g1.finished = false →
          g1.currentPlayerId = g.currentPlayerId)) := by
  have hfin := addNewlyFinished_eq_append room.players g.playersState g.finished hnodup
  unfold ensureFinishAndMaybeEnd
  simp only [hg]
  rw [hfin]
  set f1 := g.finished ++ newlyFinished room.players g.playersState g.finished with hf1
  by_cases hend : (activeIds room.players f1).length = 1 ∧ 2 ≤ room.players.length
  · have hend2 : (activeIds room.players f1).length = 1 ∧
        2 ≤ (room.players.map Player.id).length := by
      simpa [List.length_map] using hend
    rw [if_pos hend2]
    exact ⟨_, rfl, rfl, fun _ => ⟨rfl, rfl, rfl⟩, fun hc => absurd hend hc⟩
  · have hend2 : ¬ ((activeIds room.players f1).length = 1 ∧
        2 ≤ (room.players.map Player.id).length) := by
      simpa [List.length_map] using hend
    rw [if_neg hend2]
    by_cases hbump : optMem g.currentPlayerId f1 = true
    · rw [if_pos hbump]
      refine ⟨_, rfl, rfl, fun hc => absurd hc hend, fun _ => ⟨fun _ => ?_, fun hc => ?_⟩⟩
      · apply nextPlayerId_not_active
        intro c hc2 hmem
        have hcont := activeIds_not_contains hmem
        rw [hc2] at hbump
        simp only [optMem] at hbump
        rw [hbump] at hcont
        exact absurd hcont (by simp)
      · rw [hbump] at hc
        exact absurd hc (by simp)
    · have hbf : optMem g.currentPlayerId f1 = false := Bool.eq_false_iff.mpr hbump
      rw [if_neg hbump]
      refine ⟨_, rfl, rfl, fun hc => absurd hc hend, fun _ => ⟨fun hc => ?_, fun _ => rfl⟩⟩
      rw [hbf] at hc
      exact absurd hc (by simp)

/-! ## C6 counterexample and witness states -/

/-- The next active player in seat order after a given player, wrapping:
the wording of the claim for the bump of the turn pointer. -/
def specNextActiveAfter (players : List Player) (finished : List PlayerId)
    (pid : PlayerId) : Option PlayerId :=
  let ids := players.map Player.id
  let after := (ids.dropWhile (fun i => decide (i ≠ pid))).drop 1
  let before := ids.takeWhile (fun i => decide (i ≠ pid))
  (after ++ before).find? (fun i => !(finished.contains i))

def cx6A : PlayerState := {
  id := 0, name := "A", hand := [], faceUp := [], faceDown := [], stage := Stage.playing }

def cx6B : PlayerState := {
  id := 1, name := "B", hand := [{ r := Rank.four, s := "H", id := 21 }], faceUp := [],
  faceDown := [], stage := Stage.playing }

def cx6C : PlayerState := {
  id := 2, name := "C", hand := [{ r := Rank.five, s := "H", id := 22 }], faceUp := [],
  faceDown := [], stage := Stage.playing }

def cx6room : Room := {
  hostSocketId := some 0,
  players := [{ id := 0, name := "A" }, { id := 1, name := "B" }, { id := 2, name := "C" }],
  phase := Phase.playing,
  game := some {
    deck := [], pile := [], burned := [], currentPlayerId := some 0,
    playersState := [cx6A, cx6B, cx6C], finished := [0], winnerId := none,
    loserId := none } }

/-- Counterexample to C6 as stated: three players, player 0 finished and
holding the turn pointer.  The next active player in seat order after
player 0 is player 1, but the recomputation sets currentPlayerId to player
2: nextPlayerId falls back to index 0 of the active list [1, 2] and one
step from there lands on its second element. -/
theorem c6_finish_counterexample :
    cx6room.game.map GameState.currentPlayerId = some (some 0) ∧
    cx6room.game.map GameState.finished = some [0] ∧
    specNextActiveAfter cx6room.players [0] 0 = some 1 ∧
    (ensureFinishAndMaybeEnd cx6room).game.map GameState.currentPlayerId =
      some (some 2) := by decide

/-- Witness for the amended C6 at a concrete state (the C7 sample room): no
player is newly finished, the game does not end and the unfinished current
player keeps the turn. -/
theorem c6_finish_resolution_witness :
    ∃ g1, (ensureFinishAndMaybeEnd w7room).game = some g1 ∧
      g1.finished = w7g.finished ++ newlyFinished w7room.players w7g.playersState w7g.finished ∧
      (((activeIds w7room.players g1.finished).length = 1 ∧ 2 ≤ w7room.players.length) →
        (ensureFinishAndMaybeEnd w7room).phase = Phase.ended ∧
        g1.winnerId = g1.finished.head? ∧
        g1.loserId = (activeIds w7room.players g1.finished).head?) ∧
      (¬ ((activeIds w7room.players g1.finished).length = 1 ∧ 2 ≤ w7room.players.length) →
        (optMem w7g.currentPlayerId g1.finished = true →
          g1.currentPlayerId = (activeIds w7room.players g1.finished)[1 %
            (activeIds w7room.players g1.finished).length]?) ∧
        (optMem w7g.currentPlayerId g1.finished = false →
          g1.currentPlayerId = w7g.currentPlayerId)) :=
  c6_finish_resolution rfl (by decide)

/-! ## Claim C8: setup:setFaceUp and duplicate ids -/

def c8P0 : PlayerState := {
  id := 0, name := "A",
  hand := [{ r := Rank.ace, s := "S", id := 1 }, { r := Rank.two, s := "S", id := 2 },
           { r := Rank.three, s := "S", id := 3 }, { r := Rank.four, s := "S", id := 4 },
           { r := Rank.five, s := "S", id := 5 }, { r := Rank.six, s := "S", id := 6 }],
  faceUp := [],
  faceDown := [{ r := Rank.seven, s := "S", id := 7 }, { r := Rank.eight, s := "S", id := 8 },
               { r := Rank.nine, s := "S", id := 9 }],
  stage := Stage.chooseFaceUp }

def c8P1 : PlayerState := {
  id := 1, name := "B", hand := [{ r := Rank.ace, s := "H", id := 11 }], faceUp := [],
  faceDown := [], stage := Stage.chooseFaceUp }

def c8Room : Room := {
  hostSocketId := some 0,
  players := [{ id := 0, name := "A" }, { id := 1, name := "B" }],
  phase := Phase.setup,
  game := some {
    deck := [], pile := [], burned := [], currentPlayerId := some 0,
    playersState := [c8P0, c8P1], finished := [], winnerId := none, loserId := none } }

/-- C8: the setup:setFaceUp handler does not check that the three chosen
ids are distinct.  At this input — a player in chooseFaceUp with the full
6-card hand who submits three copies of the id of one hand card — the
request is accepted, and afterwards the faceUp zone of the player holds 1
card and the hand 5 with the stage ready, although the source itself
annotates the hand assignment with leaves 3, and the claim requires a
validation failure for non-distinct ids and a 3 + 3 split after success. -/
theorem c8_duplicate_ids_accepted :
    (setFaceUp c8Room 0 [1, 1, 1]).2 = SetupResult.ok ∧
    (setFaceUp c8Room 0 [1, 1, 1]).1.game.map (fun g =>
      (findPlayer g.playersState 0).map (fun p => (p.faceUp.length, p.hand.length, p.stage)))
      = some (some (1, 5, Stage.ready)) := by decide

/-! ## Claim C10: card conservation -/

/-- The multiset of card ids of a card list. -/
def zoneIds (l : List Card) : Multiset Nat := (l.map Card.id : List Nat)

/-- The multiset of card ids held by a player across the three zones. -/
def psCards (ps : PlayerState) : Multiset Nat :=
  zoneIds ps.hand + zoneIds ps.faceUp + zoneIds ps.faceDown

def playersCards (pss : List PlayerState) : Multiset Nat :=
  (pss.map psCards).sum

/-- The multiset of card ids in a game: deck, pile, burned and every
player. -/
def gameCards (g : GameState) : Multiset Nat :=
  zoneIds g.deck + zoneIds g.pile + zoneIds g.burned + playersCards g.playersState

def roomCards (room : Room) : Multiset Nat :=
  match room.game with
  | none => 0
  | some g => gameCards g

theorem zoneIds_append (a b : List Card) : zoneIds (a ++ b) = zoneIds a + zoneIds b := by
  simp [zoneIds]

theorem zoneIds_partition (p : Card → Bool) (l : List Card) :
    zoneIds (l.filter p) + zoneIds (l.filter (fun c => !(p c))) = zoneIds l := by
  rw [← zoneIds_append]
  unfold zoneIds
  exact Multiset.coe_eq_coe.mpr ((List.filter_append_perm p l).map Card.id)

theorem zoneIds_eraseIdx {l : List Card} {i : Nat} {c : Card} (h : l[i]? = some c) :
    c.id ::ₘ zoneIds (l.eraseIdx i) = zoneIds l := by
  induction l generalizing i with
  | nil => simp at h
  | cons b t ih =>
    cases i with
    | zero =>
      simp only [List.getElem?_cons_zero, Option.some.injEq] at h
      subst h
      simp [zoneIds, List.eraseIdx]
    | succ n =>
      simp only [List.getElem?_cons_succ] at h
      have hih := ih h
      rw [List.eraseIdx_cons_succ]
      have hb : zoneIds (b :: t.eraseIdx n) = b.id ::ₘ zoneIds (t.eraseIdx n) := by
        simp [zoneIds]
      have hb2 : zoneIds (b :: t) = b.id ::ₘ zoneIds t := by
        simp [zoneIds]
      rw [hb, hb2, Multiset.cons_swap, hih]

theorem drawLoop_cards : ∀ (d h : List Card),
    zoneIds (drawLoop d h).1 + zoneIds (drawLoop d h).2 = zoneIds d + zoneIds h := by
  intro d
  induction d with
  | nil => intro h; rw [drawLoop_nil]
  | cons c rest ih =>
    intro h
    by_cases hlen : h.length < 3
    · have hd : drawLoop (c :: rest) h = drawLoop rest (h ++ [c]) := by
        conv_lhs => rw [drawLoop]
        rw [if_pos hlen]
      rw [hd, ih (h ++ [c]), zoneIds_append]
      have h1 : zoneIds (c :: rest) = c.id ::ₘ zoneIds rest := by simp [zoneIds]
      have h2 : zoneIds [c] = c.id ::ₘ 0 := by simp [zoneIds]
      rw [h1, h2]
      simp [← Multiset.singleton_add, add_comm, add_left_comm, add_assoc]
    · have hd : drawLoop (c :: rest) h = (c :: rest, h) := by
        unfold drawLoop
        rw [if_neg hlen]
      rw [hd]

theorem playersCards_setPlayer {pss : List PlayerState} {pid : PlayerId} {ps : PlayerState}
    (ps2 : PlayerState) (h : findPlayer pss pid = some ps) :
    ∃ rest : Multiset Nat,
      playersCards pss = psCards ps + rest ∧
      playersCards (setPlayer pss pid ps2) = psCards ps2 + rest := by
  induction pss with
  | nil => simp [findPlayer] at h
  | cons q l ih =>
    by_cases hq : q.id = pid
    · have hqe : q = ps := by
        have : some q = some ps := by
          simpa [findPlayer, List.find?_cons, hq] using h
        simpa using this
      subst hqe
      refine ⟨playersCards l, ?_, ?_⟩
      · simp [playersCards]
      · have hset : setPlayer (q :: l) pid ps2 = ps2 :: l := by
          simp [setPlayer, hq]
        rw [hset]
        simp [playersCards]
    · obtain ⟨rest, h1, h2⟩ := ih (by simpa [findPlayer, List.find?_cons, hq] using h)
      refine ⟨psCards q + rest, ?_, ?_⟩
      · have hc : playersCards (q :: l) = psCards q + playersCards l := by
          simp [playersCards]
        rw [hc, h1]
        simp [add_comm, add_left_comm, add_assoc]
      · have hset : setPlayer (q :: l) pid ps2 = q :: setPlayer l pid ps2 := by
          simp [setPlayer, hq]
        rw [hset]
        have hc : playersCards (q :: setPlayer l pid ps2) =
            psCards q + playersCards (setPlayer l pid ps2) := by
          simp [playersCards]
        rw [hc, h2]
        simp [add_comm, add_left_comm, add_assoc]

theorem selectCards_cards {ps : PlayerState} {source : Zone} {cardIds : List Nat}
    {fdi : Option Int} {played : List Card} {ps1 : PlayerState}
    (h : selectCards ps source cardIds fdi = Except.ok (played, ps1)) :
    psCards ps1 + zoneIds played = psCards ps := by
  simp only [selectCards] at h
  split at h
  · -- faceDown
    split at h
    · simp at h
    · split at h
      · simp at h
      · split at h
        · simp at h
        · rename_i c hfd
          simp only [Except.ok.injEq, Prod.mk.injEq] at h
          obtain ⟨h1, h2⟩ := h
          subst h1; subst h2
          have he := zoneIds_eraseIdx hfd
          have hz : zoneIds [c] = c.id ::ₘ 0 := by simp [zoneIds]
          simp only [psCards, hz]
          rw [← he]
          simp [← Multiset.singleton_add, add_comm, add_left_comm, add_assoc]
  · -- hand or faceUp
    split at h
    · simp at h
    · by_cases hs : source = Zone.hand
      · rw [if_pos hs] at h
        split at h
        · split at h
          · simp only [Except.ok.injEq, Prod.mk.injEq] at h
            obtain ⟨h1, h2⟩ := h
            subst h1; subst h2
            have hp := zoneIds_partition (fun c => cardIds.contains c.id) ps.hand
            simp only [psCards, removeCardsByIds]
            rw [← hp]
            simp [add_comm, add_left_comm, add_assoc]
          · simp at h
        · simp at h
      · rw [if_neg hs] at h
        split at h
        · split at h
          · simp only [Except.ok.injEq, Prod.mk.injEq] at h
            obtain ⟨h1, h2⟩ := h
            subst h1; subst h2
            have hp := zoneIds_partition (fun c => cardIds.contains c.id) ps.faceUp
            simp only [psCards, removeCardsByIds]
            rw [← hp]
            simp [add_comm, add_left_comm, add_assoc]
          · simp at h
        · simp at h

theorem roomCards_ensure (room : Room) :
    roomCards (ensureFinishAndMaybeEnd room) = roomCards room := by
  unfold ensureFinishAndMaybeEnd
  cases hg : room.game with
  | none => rfl
  | some g =>
    have hr : roomCards room = gameCards g := by
      unfold roomCards
      rw [hg]
    rw [hr]
    dsimp only
    split
    · simp [roomCards, gameCards]
    · split
      · simp [roomCards, gameCards]
      · simp [roomCards, gameCards]

theorem gameCards_ignore_cur (X : GameState) (cur : Option PlayerId) :
    gameCards { X with currentPlayerId := cur } = gameCards X := rfl

theorem gameCards_drawUpToThree (g : GameState) (pid : PlayerId) :
    gameCards (drawUpToThree g pid) = gameCards g := by
  cases hfp : findPlayer g.playersState pid with
  | none =>
    unfold drawUpToThree
    rw [hfp]
  | some ps =>
    rw [drawUpToThree_spec hfp]
    obtain ⟨rest, h1, h2⟩ :=
      playersCards_setPlayer { ps with hand := (drawLoop g.deck ps.hand).2 } hfp
    have hgl : gameCards (drawnGame g pid ps) =
        zoneIds (drawLoop g.deck ps.hand).1 + zoneIds g.pile + zoneIds g.burned +
          playersCards (setPlayer g.playersState pid
            { ps with hand := (drawLoop g.deck ps.hand).2 }) := rfl
    have hgr : gameCards g =
        zoneIds g.deck + zoneIds g.pile + zoneIds g.burned +
          playersCards g.playersState := rfl
    rw [hgl, hgr, h2, h1]
    have hps2 : psCards { ps with hand := (drawLoop g.deck ps.hand).2 } =
        zoneIds (drawLoop g.deck ps.hand).2 + zoneIds ps.faceUp + zoneIds ps.faceDown := rfl
    have hps : psCards ps = zoneIds ps.hand + zoneIds ps.faceUp + zoneIds ps.faceDown := rfl
    rw [hps2, hps]
    have hdl := drawLoop_cards g.deck ps.hand
    have e1 : zoneIds (drawLoop g.deck ps.hand).1 + zoneIds g.pile + zoneIds g.burned +
        (zoneIds (drawLoop g.deck ps.hand).2 + zoneIds ps.faceUp + zoneIds ps.faceDown + rest) =
        (zoneIds (drawLoop g.deck ps.hand).1 + zoneIds (drawLoop g.deck ps.hand).2) +
        (zoneIds g.pile + zoneIds g.burned +
          (zoneIds ps.faceUp + zoneIds ps.faceDown + rest)) := by
      simp [add_comm, add_left_comm, add_assoc]
    have e2 : zoneIds g.deck + zoneIds g.pile + zoneIds g.burned +
        (zoneIds ps.hand + zoneIds ps.faceUp + zoneIds ps.faceDown + rest) =
        (zoneIds g.deck + zoneIds ps.hand) +
        (zoneIds g.pile + zoneIds g.burned +
          (zoneIds ps.faceUp + zoneIds ps.faceDown + rest)) := by
      simp [add_comm, add_left_comm, add_assoc]
    rw [e1, e2, hdl]

theorem gameCards_burn_branch {g : GameState} {sid : PlayerId} {ps ps1 : PlayerState}
    {played : List Card}
    (hfp : findPlayer g.playersState sid = some ps)
    (hsc : psCards ps1 + zoneIds played = psCards ps) :
    gameCards { g with
      pile := ([] : List Card),
      burned := g.burned ++ (g.pile ++ played),
      playersState := setPlayer g.playersState sid ps1 } = gameCards g := by
  obtain ⟨rest, h1, h2⟩ := playersCards_setPlayer ps1 hfp
  unfold gameCards
  dsimp only
  rw [h2, h1, ← hsc, zoneIds_append, zoneIds_append]
  have hnil : zoneIds ([] : List Card) = 0 := rfl
  rw [hnil]
  simp [add_comm, add_left_comm, add_assoc]

theorem gameCards_plain_branch {g : GameState} {sid : PlayerId} {ps ps1 : PlayerState}
    {played : List Card}
    (hfp : findPlayer g.playersState sid = some ps)
    (hsc : psCards ps1 + zoneIds played = psCards ps) :
    gameCards { g with
      pile := g.pile ++ played,
      playersState := setPlayer g.playersState sid ps1 } = gameCards g := by
  obtain ⟨rest, h1, h2⟩ := playersCards_setPlayer ps1 hfp
  unfold gameCards
  dsimp only
  rw [h2, h1, ← hsc, zoneIds_append]
  simp [add_comm, add_left_comm, add_assoc]

theorem gameCards_forced_branch {g : GameState} {sid : PlayerId} {ps ps1 : PlayerState}
    {played : List Card}
    (hfp : findPlayer g.playersState sid = some ps)
    (hsc : psCards ps1 + zoneIds played = psCards ps) (cur : Option PlayerId) :
    gameCards { g with
      pile := ([] : List Card),
      playersState := setPlayer g.playersState sid
        { ps1 with hand := ps1.hand ++ played ++ g.pile },
      currentPlayerId := cur } = gameCards g := by
  obtain ⟨rest, h1, h2⟩ :=
    playersCards_setPlayer { ps1 with hand := ps1.hand ++ played ++ g.pile } hfp
  unfold gameCards
  dsimp only
  rw [h2, h1, ← hsc]
  have hps2 : psCards { ps1 with hand := ps1.hand ++ played ++ g.pile } =
      zoneIds (ps1.hand ++ played ++ g.pile) + zoneIds ps1.faceUp + zoneIds ps1.faceDown := rfl
  have hps1 : psCards ps1 =
      zoneIds ps1.hand + zoneIds ps1.faceUp + zoneIds ps1.faceDown := rfl
  rw [hps2, hps1, zoneIds_append, zoneIds_append]
  have hnil : zoneIds ([] : List Card) = 0 := rfl
  rw [hnil]
  simp [add_comm, add_left_comm, add_assoc]

theorem roomCards_applyPlay {room : Room} {g : GameState} {sid : PlayerId}
    {ps ps1 : PlayerState} {source : Zone} {played : List Card}
    (hg : room.game = some g)
    (hfp : findPlayer g.playersState sid = some ps)
    (hsc : psCards ps1 + zoneIds played = psCards ps) :
    roomCards (applyPlay room g sid ps1 source played).1 = roomCards room := by
  have hr : roomCards room = gameCards g := by
    unfold roomCards
    rw [hg]
  rw [hr]
  unfold applyPlay
  dsimp only
  split
  · split
    · -- burn
      dsimp only
      rw [roomCards_ensure]
      unfold roomCards
      dsimp only
      split
      · rw [gameCards_drawUpToThree]
        exact gameCards_burn_branch hfp hsc
      · exact gameCards_burn_branch hfp hsc
    · -- plain
      dsimp only
      rw [roomCards_ensure]
      unfold roomCards
      dsimp only
      rw [gameCards_ignore_cur]
      split
      · rw [gameCards_drawUpToThree]
        exact gameCards_plain_branch hfp hsc
      · exact gameCards_plain_branch hfp hsc
  · -- forced pickup
    dsimp only
    rw [roomCards_ensure]
    unfold roomCards
    dsimp only
    exact gameCards_forced_branch hfp hsc _

theorem roomCards_playCards (room : Room) (sid : PlayerId) (source : Zone)
    (cardIds : List Nat) (fdi : Option Int) :
    roomCards (playCards room sid source cardIds fdi).1 = roomCards room := by
  unfold playCards
  cases hg : room.game with
  | none => rfl
  | some g =>
    dsimp only
    by_cases hph : room.phase ≠ Phase.playing
    · rw [if_pos hph]
    · rw [if_neg hph]
      by_cases hcur : g.currentPlayerId ≠ some sid
      · rw [if_pos hcur]
      · rw [if_neg hcur]
        cases hfp : findPlayer g.playersState sid with
        | none => rfl
        | some ps =>
          dsimp only
          by_cases hz : source ≠ playerZoneToUse g sid
          · rw [if_pos hz]
          · rw [if_neg hz]
            cases hsel : selectCards ps source cardIds fdi with
            | error e => rfl
            | ok pr =>
              obtain ⟨played, ps1⟩ := pr
              dsimp only
              exact roomCards_applyPlay hg hfp (selectCards_cards hsel)

theorem gameCards_pickup_branch {g : GameState} {sid : PlayerId} {ps : PlayerState}
    (hfp : findPlayer g.playersState sid = some ps) (cur : Option PlayerId) :
    gameCards { g with
      pile := ([] : List Card),
      playersState := setPlayer g.playersState sid { ps with hand := ps.hand ++ g.pile },
      currentPlayerId := cur } = gameCards g := by
  obtain ⟨rest, h1, h2⟩ := playersCards_setPlayer { ps with hand := ps.hand ++ g.pile } hfp
  unfold gameCards
  dsimp only
  rw [h2, h1]
  have hA : psCards { ps with hand := ps.hand ++ g.pile } =
      zoneIds (ps.hand ++ g.pile) + zoneIds ps.faceUp + zoneIds ps.faceDown := rfl
  have hB : psCards ps = zoneIds ps.hand + zoneIds ps.faceUp + zoneIds ps.faceDown := rfl
  rw [hA, hB, zoneIds_append]
  have hnil : zoneIds ([] : List Card) = 0 := rfl
  rw [hnil]
  simp [add_comm, add_left_comm, add_assoc]

theorem roomCards_pickupPile (room : Room) (sid : PlayerId) :
    roomCards (pickupPile room sid).1 = roomCards room := by
  unfold pickupPile
  cases hg : room.game with
  | none => rfl
  | some g =>
    dsimp only
    by_cases hph : room.phase ≠ Phase.playing
    · rw [if_pos hph]
    · rw [if_neg hph]
      by_cases hc : g.currentPlayerId ≠ some sid
      · rw [if_pos hc]
      · rw [if_neg hc]
        cases hfp : findPlayer g.playersState sid with
        | none => rfl
        | some ps =>
          dsimp only
          rw [roomCards_ensure]
          have hr : roomCards room = gameCards g := by
            unfold roomCards
            rw [hg]
          rw [hr]
          unfold roomCards
          dsimp only
          exact gameCards_pickup_branch hfp _

/-- The reachability invariant needed for conservation of setup:setFaceUp:
during chooseFaceUp the faceUp zone is empty (the handler overwrites it). -/
def faceUpEmptyFor (room : Room) (sid : PlayerId) : Bool :=
  match room.game with
  | none => true
  | some g =>
    match findPlayer g.playersState sid with
    | none => true
    | some you => you.faceUp.isEmpty

theorem playersCards_map_stage (pss : List PlayerState) :
    playersCards (pss.map (fun p => { p with stage := Stage.playing })) = playersCards pss := by
  induction pss with
  | nil => rfl
  | cons q l ih =>
    have h1 : playersCards ((q :: l).map (fun p => { p with stage := Stage.playing })) =
        psCards { q with stage := Stage.playing } +
          playersCards (l.map (fun p => { p with stage := Stage.playing })) := by
      simp [playersCards]
    have h2 : playersCards (q :: l) = psCards q + playersCards l := by
      simp [playersCards]
    have h3 : psCards { q with stage := Stage.playing } = psCards q := rfl
    rw [h1, h2, ih, h3]

theorem gameCards_setFaceUp_branch {g : GameState} {sid : PlayerId} {you : PlayerState}
    (hfp : findPlayer g.playersState sid = some you) (hfu : you.faceUp = [])
    (chosen : List Nat) :
    playersCards (setPlayer g.playersState sid
      { you with faceUp := you.hand.filter (fun c => chosen.contains c.id),
                 hand := you.hand.filter (fun c => !(chosen.contains c.id)),
                 stage := Stage.ready }) = playersCards g.playersState := by
  obtain ⟨rest, h1, h2⟩ := playersCards_setPlayer
    { you with faceUp := you.hand.filter (fun c => chosen.contains c.id),
               hand := you.hand.filter (fun c => !(chosen.contains c.id)),
               stage := Stage.ready } hfp
  rw [h2, h1]
  have hA : psCards
      { you with faceUp := you.hand.filter (fun c => chosen.contains c.id),
                 hand := you.hand.filter (fun c => !(chosen.contains c.id)),
                 stage := Stage.ready } =
      zoneIds (you.hand.filter (fun c => !(chosen.contains c.id))) +
        zoneIds (you.hand.filter (fun c => chosen.contains c.id)) +
        zoneIds you.faceDown := rfl
  have hB : psCards you = zoneIds you.hand + zoneIds you.faceUp + zoneIds you.faceDown := rfl
  rw [hA, hB, hfu]
  have hnil : zoneIds ([] : List Card) = 0 := rfl
  rw [hnil]
  have hp := zoneIds_partition (fun c => chosen.contains c.id) you.hand
  rw [← hp]
  simp [add_comm, add_left_comm, add_assoc]

theorem roomCards_setFaceUp (room : Room) (sid : PlayerId) (chosen : List Nat)
    (hfu : faceUpEmptyFor room sid = true) :
    roomCards (setFaceUp room sid chosen).1 = roomCards room := by
  unfold setFaceUp
  cases hg : room.game with
  | none => rfl
  | some g =>
    dsimp only
    cases hfp : findPlayer g.playersState sid with
    | none => rfl
    | some you =>
      dsimp only
      have hfu2 : you.faceUp = [] := by
        unfold faceUpEmptyFor at hfu
        rw [hg] at hfu
        dsimp only at hfu
        rw [hfp] at hfu
        simpa [List.isEmpty_iff] using hfu
      by_cases h1 : you.stage ≠ Stage.chooseFaceUp
      · rw [if_pos h1]
      · rw [if_neg h1]
        by_cases h2 : chosen.length ≠ 3
        · rw [if_pos h2]
        · rw [if_neg h2]
          by_cases h3 : (chosen.all fun i => you.hand.any fun c => decide (c.id = i)) = true
          · rw [if_pos h3]
            have hr : roomCards room = gameCards g := by
              unfold roomCards
              rw [hg]
            rw [hr]
            split
            · unfold roomCards gameCards
              dsimp only
              rw [playersCards_map_stage, gameCards_setFaceUp_branch hfp hfu2 chosen]
            · unfold roomCards gameCards
              dsimp only
              rw [gameCards_setFaceUp_branch hfp hfu2 chosen]
          · rw [if_neg h3]

theorem playersCards_cons (q : PlayerState) (l : List PlayerState) :
    playersCards (q :: l) = psCards q + playersCards l := by
  simp [playersCards]

theorem psCards_mk (i : PlayerId) (n : String) (h fu fd : List Card) (st : Stage) :
    psCards ⟨i, n, h, fu, fd, st⟩ = zoneIds h + zoneIds fu + zoneIds fd := rfl

theorem dealPlayers_cards : ∀ (players : List Player) (deck : List Card),
    playersCards (dealPlayers players deck).1 + zoneIds (dealPlayers players deck).2 =
      zoneIds deck := by
  intro players
  induction players with
  | nil =>
    intro deck
    show playersCards [] + zoneIds deck = zoneIds deck
    simp [playersCards]
  | cons p rest ih =>
    intro deck
    have hsp : (dealPlayers (p :: rest) deck).1 =
        ⟨p.id, p.name, (deck.drop 3).take 6, [], deck.take 3, Stage.chooseFaceUp⟩ ::
          (dealPlayers rest ((deck.drop 3).drop 6)).1 := rfl
    have hsp2 : (dealPlayers (p :: rest) deck).2 =
        (dealPlayers rest ((deck.drop 3).drop 6)).2 := rfl
    rw [hsp, hsp2, playersCards_cons, psCards_mk]
    have hnil : zoneIds ([] : List Card) = 0 := rfl
    rw [hnil]
    have hl : deck.take 3 ++ ((deck.drop 3).take 6 ++ (deck.drop 3).drop 6) = deck := by
      rw [List.take_append_drop, List.take_append_drop]
    have hdeck : zoneIds deck =
        zoneIds (deck.take 3) +
          (zoneIds ((deck.drop 3).take 6) + zoneIds ((deck.drop 3).drop 6)) := by
      rw [← zoneIds_append, ← zoneIds_append, hl]
    rw [hdeck, ← ih ((deck.drop 3).drop 6)]
    simp [add_comm, add_left_comm, add_assoc]

/-- C10: card conservation.  Every play:cards request (legal, burned or
forced pickup), every play:pickup request, and — given the reachable-state
invariant that a player choosing face-up cards has an empty faceUp zone —
every setup:setFaceUp request preserves the multiset of card ids across
deck, pile, burned and all player zones; and the deal of game:start
partitions the shuffled deck across player zones and the remaining deck. -/
theorem c10_card_conservation :
    (∀ (room : Room) (sid : PlayerId) (source : Zone) (cardIds : List Nat) (fdi : Option Int),
      roomCards (playCards room sid source cardIds fdi).1 = roomCards room) ∧
    (∀ (room : Room) (sid : PlayerId),
      roomCards (pickupPile room sid).1 = roomCards room) ∧
    (∀ (room : Room) (sid : PlayerId) (chosen : List Nat),
      faceUpEmptyFor room sid = true →
      roomCards (setFaceUp room sid chosen).1 = roomCards room) ∧
    (∀ (players : List Player) (deck : List Card),
      playersCards (dealPlayers players deck).1 + zoneIds (dealPlayers players deck).2 =
        zoneIds deck) :=
  ⟨roomCards_playCards, roomCards_pickupPile,
   fun room sid chosen hfu => roomCards_setFaceUp room sid chosen hfu,
   dealPlayers_cards⟩

/-- Witness for C10 at concrete inputs: a forced-pickup play, a pickup, a
face-up lock and a deal, each conserving the card ids. -/
theorem c10_card_conservation_witness :
    roomCards (playCards w3room 0 Zone.hand [40] none).1 = roomCards w3room ∧
    roomCards (pickupPile w3room 0).1 = roomCards w3room ∧
    (faceUpEmptyFor c8Room 0 = true ∧
      roomCards (setFaceUp c8Room 0 [1, 2, 3]).1 = roomCards c8Room) ∧
    playersCards (dealPlayers w3room.players [w3c4, w3cq]).1 +
        zoneIds (dealPlayers w3room.players [w3c4, w3cq]).2 = zoneIds [w3c4, w3cq] :=
  ⟨c10_card_conservation.1 w3room 0 Zone.hand [40] none,
   c10_card_conservation.2.1 w3room 0,
   ⟨by decide, c10_card_conservation.2.2.1 c8Room 0 [1, 2, 3] (by decide)⟩,
   c10_card_conservation.2.2.2 w3room.players [w3c4, w3cq]⟩
